import Mathlib

/-!
Verification of the next3/ext4-snapshots block-mapping and snapshot COW engine.

Definitions are shallow embeddings of the C source:
  - `fs/next3/inode.c` : path resolver, goal heuristics, branch allocation and
    splicing, truncate entry points;
  - the ext4 snapshot engine (`snapshot.c` / `snapshot.h`) : `test_and_cow`,
    `test_and_move`, the transaction-local COW cache and the COW hooks.

Machine integers are modelled as `Nat`/`Int`; C bit operations `>>` and `&`
are kept as `>>>`/`&&&` on `Nat`.  Fallible kernel services (journal access,
the block allocator, buffer reads) are modelled by explicit outcome fields in
an environment record, so every function stays executable.
-/

namespace Next3


/-! ## Constants

`NEXT3_NDIR_BLOCKS`, `NEXT3_IND_BLOCK`, `NEXT3_DIND_BLOCK`, `NEXT3_TIND_BLOCK`
live in the header `next3_fs.h` (not part of the source tree given here).
Modelled from the spec: the inode slot array is `N_BLOCKS = DIR_BLOCKS + 3`
slots, `DIR_BLOCKS = 12` direct slots followed by the IND, DIND, TIND slots,
and scenario S2 pins `offsets = [14, 0, 0, 0]` for the first TIND block. -/

def NEXT3_NDIR_BLOCKS : Nat := 12

def NEXT3_IND_BLOCK : Nat := NEXT3_NDIR_BLOCKS

def NEXT3_DIND_BLOCK : Nat := NEXT3_IND_BLOCK + 1

def NEXT3_TIND_BLOCK : Nat := NEXT3_DIND_BLOCK + 1

/-- Modelled from the spec: snapshot inodes "use up to 4 triple indirect
blocks to map 2^32 blocks" (`NEXT3_SNAPSHOT_NTIND_BLOCKS`, defined in the
missing header `next3_fs.h`). -/
def NEXT3_SNAPSHOT_NTIND_BLOCKS : Nat := 4

/-! ## PathResolver: `next3_block_to_path`

`next3_block_to_path(inode, i_block, offsets[4], *boundary)` from
`fs/next3/inode.c` (CONFIG_NEXT3_FS_SNAPSHOT_FILE_HUGE build: `i_block` is
`__u32`).  The result models `(n, offsets written, *boundary)`.  In the C
code `i_block` is destructively decremented; here each stage introduces a
fresh name.  `boundary = final - 1 - (i_block & (ptrs - 1))` is computed on
the final value of `i_block` and may be negative in the error case, hence
`Int`. -/

structure BlockPath where
  depth : Nat
  offsets : List Nat
  /-- The source's local variable `final`: the slot count of the level the
  walk bottomed out in (12 for the direct level, `ptrs` for an indirect
  level, 0 on the out-of-range path).  The C function keeps it internal and
  only publishes `boundary`; it is exposed here so that the boundary
  semantics can be stated. -/
  finalv : Nat
  boundary : Int
  deriving Repr, DecidableEq

/-- `final - 1 - (i_block & (ptrs - 1))`, the last statement of
`next3_block_to_path`. -/
def blockPathBoundary (ptrs_bits : Nat) (finalv i_block : Nat) : Int :=
  (finalv : Int) - 1 - ((i_block &&& (2 ^ ptrs_bits - 1) : Nat) : Int)

def next3_block_to_path (snapfile : Bool) (ptrs_bits : Nat) (i_block : Nat) :
    BlockPath :=
  let ptrs := 2 ^ ptrs_bits
  let direct_blocks := NEXT3_NDIR_BLOCKS
  let indirect_blocks := ptrs
  let double_blocks := 2 ^ (ptrs_bits * 2)
  if i_block < direct_blocks then
    ⟨1, [i_block], direct_blocks,
      blockPathBoundary ptrs_bits direct_blocks i_block⟩
  else
    let i1 := i_block - direct_blocks
    if i1 < indirect_blocks then
      ⟨2, [NEXT3_IND_BLOCK, i1], ptrs, blockPathBoundary ptrs_bits ptrs i1⟩
    else
      let i2 := i1 - indirect_blocks
      if i2 < double_blocks then
        ⟨3, [NEXT3_DIND_BLOCK, i2 >>> ptrs_bits, i2 &&& (ptrs - 1)], ptrs,
          blockPathBoundary ptrs_bits ptrs i2⟩
      else
        let i3 := i2 - double_blocks
        if i3 >>> (ptrs_bits * 2) < ptrs then
          ⟨4, [NEXT3_TIND_BLOCK, i3 >>> (ptrs_bits * 2),
               (i3 >>> ptrs_bits) &&& (ptrs - 1), i3 &&& (ptrs - 1)], ptrs,
            blockPathBoundary ptrs_bits ptrs i3⟩
        else if snapfile ∧ i3 >>> (ptrs_bits * 3) < NEXT3_SNAPSHOT_NTIND_BLOCKS then
          let tind := i3 >>> (ptrs_bits * 3)
          let i4 := i3 - (tind <<< (ptrs_bits * 3))
          ⟨4, [NEXT3_TIND_BLOCK + tind, i4 >>> (ptrs_bits * 2),
               (i4 >>> ptrs_bits) &&& (ptrs - 1), i4 &&& (ptrs - 1)], ptrs,
            blockPathBoundary ptrs_bits ptrs i4⟩
        else
          ⟨0, [], 0, blockPathBoundary ptrs_bits 0 i3⟩

def next3_blks_to_allocate_loop (slotAt : Nat → Nat) (blks boundary : Nat) :
    Nat → Nat → Nat
  | count, 0 => count
  | count, fuel + 1 =>
    if count < blks ∧ count ≤ boundary ∧ slotAt count = 0 then
      next3_blks_to_allocate_loop slotAt blks boundary (count + 1) fuel
    else count

def next3_blks_to_allocate (slotAt : Nat → Nat) (k blks boundary : Nat) :
    Nat :=
  if 0 < k then
    if blks < boundary + 1 then blks else boundary + 1
  else
    next3_blks_to_allocate_loop slotAt blks boundary 1 blks

/-- The spec-side quantity for C8: the number of leaf slots of the deepest
indirect block that remain strictly after the mapped position `l` (slot
indices `j` with `l < j < finalv`). -/
def leafSlotsAfter (finalv l : Nat) : Nat :=
  ((Finset.range finalv).filter (fun j => l < j)).card

def blocks_for_truncate (maxTransData dataTransBlocks : Nat)
    (i_blocks blocksize_bits : Nat) : Nat :=
  let needed := i_blocks >>> (blocksize_bits - 9)
  let needed := if needed < 2 then 2 else needed
  let needed := if needed > maxTransData then maxTransData else needed
  dataTransBlocks + needed

/-- `start_transaction` opens the truncate transaction with exactly
`blocks_for_truncate` credits (`next3_journal_start(inode,
blocks_for_truncate(inode))`). -/
def start_transaction_credits (maxTransData dataTransBlocks : Nat)
    (i_blocks blocksize_bits : Nat) : Nat :=
  blocks_for_truncate maxTransData dataTransBlocks i_blocks blocksize_bits

structure IndirectPos where
  slots : List Nat
  pos : Nat
  bh : Option Nat

structure NearEnv where
  blocksPerGroup : Nat
  groupFirstBlockNo : Nat → Nat
  pid : Nat

structure BlockAllocInfo where
  last_alloc_logical_block : Nat
  last_alloc_physical_block : Nat

structure GoalInode where
  blockGroup : Nat
  snapfile : Bool
  allocInfo : Option BlockAllocInfo

/-- The scan `for (p = ind->p - 1; p >= start; p--) if (*p) return *p;`:
the value of the nearest non-zero slot strictly left of `pos`. -/
def findPrevNonzero (slots : List Nat) : Nat → Option Nat
  | 0 => none
  | j + 1 =>
    if slots.getD j 0 ≠ 0 then some (slots.getD j 0)
    else findPrevNonzero slots j

def next3_find_near (env : NearEnv) (inode : GoalInode) (ind : IndirectPos) :
    Nat :=
  match findPrevNonzero ind.slots ind.pos with
  | some v => v
  | none =>
    match ind.bh with
    | some blocknr => blocknr
    | none =>
      env.groupFirstBlockNo inode.blockGroup +
        (env.pid % 16) * (env.blocksPerGroup / 16)

/-- The sequential-allocation heuristic at the head of `next3_find_goal`:
`block_i && block == last_alloc_logical_block + 1 &&
last_alloc_physical_block != 0`. -/
def findGoalSeqHeuristic (allocInfo : Option BlockAllocInfo) (block : Nat) :
    Option Nat :=
  match allocInfo with
  | some bi =>
    if block = bi.last_alloc_logical_block + 1 ∧
        bi.last_alloc_physical_block ≠ 0 then
      some (bi.last_alloc_physical_block + 1)
    else none
  | none => none

def next3_find_goal (env : NearEnv) (inode : GoalInode) (block : Nat)
    (ind : IndirectPos) : Nat :=
  match findGoalSeqHeuristic inode.allocInfo block with
  | some g => g
  | none =>
    if inode.snapfile then block
    else next3_find_near env inode ind

/-- Concrete state refuting C7 as stated: a fresh `i_block_alloc_info`
(`last_alloc_logical_block = 0`, `last_alloc_physical_block = 0`) with
`iblock = 1`: the inode "remembers `last_alloc_logical_block == iblock - 1`"
but the goal is not `last_alloc_physical_block + 1`. -/
def goalEnvCex : NearEnv := ⟨32768, fun g => 1 + g * 32768, 3⟩

def goalInodeCex : GoalInode := ⟨0, false, some ⟨0, 0⟩⟩

def goalIndCex : IndirectPos := ⟨[7, 0, 0], 1, none⟩

inductive FileMode
  | reg
  | dir
  | lnk
  | other
  deriving Repr, DecidableEq

structure TruncInode where
  onSnapshotList : Bool
  isAppend : Bool
  isImmutable : Bool
  mode : FileMode
  fastSymlink : Bool
  snapfile : Bool
  size : Nat
  iBlocks : Nat
  /-- The 15-slot block array, extended to 18 slots for snapshot files. -/
  iData : List Nat
  nlink : Nat
  deriving Repr, DecidableEq

inductive TruncEffect
  | orphanAdd
  | orphanDel
  | startTransaction
  | blockTruncatePage
  | freeData (values : List Nat)
  | freeBranches (root : Nat) (depth : Nat)
  | freeSharedTails
  | journalStop
  deriving Repr, DecidableEq

structure TruncEnv where
  pageGrabFails : Bool
  startTransactionFails : Bool
  orphanAddFails : Bool
  blocksizeBits : Nat
  ptrsBits : Nat
  /-- Outcome of `next3_find_shared`: depth index of `partial` in the chain
  (0 = the shared branch grows from the inode) .. -/
  sharedDepth : Nat
  /-- .. and the detached subtree root `nr` (0 = nothing to kill). -/
  sharedNr : Nat

def next3_can_truncate (i : TruncInode) : Bool :=
  if i.isAppend || i.isImmutable then false
  else if i.mode = FileMode.reg then true
  else if i.mode = FileMode.dir then true
  else if i.mode = FileMode.lnk then !i.fastSymlink
  else false

/-- One arm of the `do_indirects` switch: kill the whole subtree rooted in
inode slot `slot` (`nr = i_data[slot]; if (nr) { free_branches; i_data[slot]
= 0; }`). -/
def killIndirect (iData : List Nat) (slot depth : Nat) :
    List Nat × List TruncEffect :=
  let nr := iData.getD slot 0
  if nr ≠ 0 then (iData.set slot 0, [TruncEffect.freeBranches nr depth])
  else (iData, [])

/-- The `do_indirects` switch with C fall-through: starting from the case
selected by `offsets[0]`, kill the remaining whole IND/DIND/TIND subtrees;
for snapshot files also the extra TIND slots. -/
def do_indirects (offsets0 : Nat) (iData : List Nat) (sf : Bool) :
    List Nat × List TruncEffect :=
  let s1 :=
    if offsets0 < NEXT3_IND_BLOCK then killIndirect iData NEXT3_IND_BLOCK 1
    else (iData, [])
  let s2 :=
    if offsets0 < NEXT3_DIND_BLOCK then
      let r := killIndirect s1.1 NEXT3_DIND_BLOCK 2
      (r.1, s1.2 ++ r.2)
    else s1
  let s3 :=
    if offsets0 < NEXT3_TIND_BLOCK then
      let r := killIndirect s2.1 NEXT3_TIND_BLOCK 3
      (r.1, s2.2 ++ r.2)
    else s2
  if sf then
    let t1 := killIndirect s3.1 (NEXT3_TIND_BLOCK + 1) 3
    let t2 := killIndirect t1.1 (NEXT3_TIND_BLOCK + 2) 3
    let t3 := killIndirect t2.1 (NEXT3_TIND_BLOCK + 3) 3
    (t3.1, s3.2 ++ t1.2 ++ t2.2 ++ t3.2)
  else s3

/-- `i_data[offsets[0] .. NDIR)` zeroed and their non-zero values freed:
`next3_free_data(handle, inode, NULL, i_data+offsets[0], i_data+NDIR)`. -/
def freeDirectData (iData : List Nat) (from0 : Nat) :
    List Nat × List TruncEffect :=
  let vals := ((iData.take NEXT3_NDIR_BLOCKS).drop from0).filter (· ≠ 0)
  ((List.range iData.length).map
      (fun j => if from0 ≤ j ∧ j < NEXT3_NDIR_BLOCKS then 0
                else iData.getD j 0),
   [TruncEffect.freeData vals])

/-- The tree-mutating part of `next3_truncate` after all guards passed
(from `mutex_lock(&ei->truncate_mutex)` to `journal_stop`). -/
def next3_truncate_tree (env : TruncEnv) (i : TruncInode) (bp : BlockPath) :
    TruncInode × List TruncEffect :=
  let s1 :=
    if bp.depth = 1 then freeDirectData i.iData (bp.offsets.getD 0 0)
    else
      if env.sharedNr ≠ 0 then
        if env.sharedDepth = 0 then
          (i.iData.set (bp.offsets.getD 0 0) 0,
           [TruncEffect.freeBranches env.sharedNr (bp.depth - 1),
            TruncEffect.freeSharedTails])
        else
          (i.iData,
           [TruncEffect.freeBranches env.sharedNr
              (bp.depth - 1 - env.sharedDepth),
            TruncEffect.freeSharedTails])
      else (i.iData, [TruncEffect.freeSharedTails])
  let s2 := do_indirects (bp.offsets.getD 0 0) s1.1 i.snapfile
  ({ i with iData := s2.1 }, s1.2 ++ s2.2)

def next3_truncate (env : TruncEnv) (i : TruncInode) :
    TruncInode × List TruncEffect :=
  if i.onSnapshotList then (i, [])
  else if ¬ next3_can_truncate i then
    (i, if i.nlink ≠ 0 then [TruncEffect.orphanDel] else [])
  else
    let blocksize := 2 ^ env.blocksizeBits
    let pageNeeded := ¬ i.size % blocksize = 0
    if pageNeeded ∧ env.pageGrabFails then
      (i, if i.nlink ≠ 0 then [TruncEffect.orphanDel] else [])
    else if env.startTransactionFails then
      (i, if i.nlink ≠ 0 then [TruncEffect.orphanDel] else [])
    else
      let last_block := (i.size + blocksize - 1) >>> env.blocksizeBits
      let bp := next3_block_to_path i.snapfile env.ptrsBits last_block
      let stop := fun (st : TruncInode × List TruncEffect) =>
        (st.1, st.2 ++
          (if i.nlink ≠ 0 then [TruncEffect.orphanDel] else []) ++
          [TruncEffect.journalStop])
      if bp.depth = 0 then
        stop (i, [TruncEffect.startTransaction, TruncEffect.blockTruncatePage])
      else if env.orphanAddFails then
        stop (i, [TruncEffect.startTransaction, TruncEffect.blockTruncatePage])
      else
        let body := next3_truncate_tree env i bp
        stop (body.1,
          [TruncEffect.startTransaction, TruncEffect.blockTruncatePage,
           TruncEffect.orphanAdd] ++ body.2)

end Next3

namespace Ext4


/-! ## SnapshotCowEngine: `ext4_snapshot_test_and_cow` and friends

From `snapshot.c` / `snapshot.h` (the ext4 port in this repository; the
production, non-`CONFIG_EXT4_DEBUG` build, in which `cow_cache_enabled()`
is 1).  The kernel services the engine calls are modelled by outcome
fields of `CowState`:

  * `cowBitmapReadFails` — `ext4_snapshot_read_cow_bitmap` returning NULL;
  * `snapMapError` — `ext4_snapshot_map_blocks(..., SNAPMAP_READ)` failing;
  * `getblk` — the three outcomes of
    `ext4_getblk(handle, active, SNAPSHOT_IBLOCK(block), SNAPMAP_COW, &err)`:
    NULL (error), found-already-mapped (`err = 0`), or newly allocated;
  * `copyError` — `ext4_snapshot_copy_buffer_cow` failing;
  * `readMakesUptodate` — the `ll_rw_block(READ)` retry on a stale source
    buffer.

`SNAPSHOT_IBLOCK(b) = b` and `SNAPSHOT_BLOCK(b) = b` (the active snapshot
maps logical offset `b` to physical block `b`), so block numbers are used
directly. -/

def EPERM : Int := 1

def EIO : Int := 5

def ENOSPC : Int := 28

def EROFS : Int := 30

structure Handle where
  tid : Nat
  cowing : Bool
  deriving Repr, DecidableEq

structure Buffer where
  blocknr : Nat
  /-- `buffer_jbd(bh)`: attached to the journal. -/
  jbd : Bool
  /-- `jh->b_cow_tid`: the last transaction id this buffer was COWed in. -/
  cow_tid : Nat
  mapped : Bool
  uptodate : Bool
  deriving Repr, DecidableEq

structure InodeRef where
  ino : Nat
  isReg : Bool
  snapfile : Bool
  deriving Repr, DecidableEq

inductive GetblkOutcome
  | fail (code : Int)
  | found
  | allocated
  deriving Repr, DecidableEq

structure CowState where
  snapshotsEnabled : Bool
  activeSnapshotIno : Option Nat
  /-- `SNAPSHOT_BLOCKS(snapshot)`: the filesystem size at snapshot take. -/
  snapshotBlocks : Nat
  /-- A set bit: the block was in use when the snapshot was taken. -/
  cowBitmap : Nat → Bool
  /-- Blocks currently mapped in the active snapshot file. -/
  snapMapped : Nat → Bool
  cowBitmapReadFails : Bool
  snapMapError : Option Int
  readMakesUptodate : Bool
  getblk : GetblkOutcome
  copyError : Option Int

/-- `test_cow_tid(jh, handle) && buffer_jbd(bh)` test of
`ext4_snapshot_test_cowed` (production build: `cow_cache_enabled() = 1`). -/
def ext4_snapshot_test_cowed (h : Handle) (bh? : Option Buffer) : Bool :=
  match bh? with
  | some b => b.jbd && b.cow_tid == h.tid
  | none => false

/-- `ext4_snapshot_mark_cowed`: record the running transaction id in the
buffer's journal head, if the buffer is attached to the journal. -/
def ext4_snapshot_mark_cowed (h : Handle) (bh? : Option Buffer) :
    Option Buffer :=
  match bh? with
  | some b => if b.jbd then some { b with cow_tid := h.tid } else some b
  | none => none

/-- `ext4_snapshot_excluded`: 0 for normal files and global metadata,
-1 ("ignored") for snapshot files. -/
def ext4_snapshot_excluded (inode? : Option InodeRef) : Int :=
  match inode? with
  | none => 0
  | some i => if !i.isReg then 0 else if i.snapfile then -1 else 0

/-- Run length of equal bits from `start`, capped at the second argument:
`ext4_mb_test_bit_range`'s update of `*maxblocks`. -/
def bitRunLen (f : Nat → Bool) : Nat → Nat → Nat
  | _, 0 => 0
  | start, n + 1 =>
    if f (start + 1) = f start then 1 + bitRunLen f (start + 1) n else 1

/-- `ext4_snapshot_test_cow_bitmap`: blocks past the snapshot-take size are
not in use by the snapshot; otherwise read the COW bitmap and test the bit
range.  Returns `(err, maxblocks')`. -/
def ext4_snapshot_test_cow_bitmap (s : CowState) (block count : Nat) :
    Int × Nat :=
  if s.snapshotBlocks ≤ block then (0, count)
  else if s.cowBitmapReadFails then (- EIO, count)
  else ((if s.cowBitmap block then 1 else 0), bitRunLen s.cowBitmap block count)

structure CowResult where
  ret : Int
  handle : Handle
  buffer : Option Buffer
  didCopy : Bool
  deriving Repr, DecidableEq

/-- `ext4_snapshot_cow_end`: clear `h_cowing` (every exit from the body of
a COW operation passes through the `out:` label). -/
def cow_end (r : CowResult) : CowResult :=
  { r with handle := { r.handle with cowing := false } }

/-- The body of `ext4_snapshot_test_and_cow` between `cow_begin` and
`cow_end` (`handle->h_cowing` is set on entry). -/
def cow_main (s : CowState) (h : Handle) (inode? : Option InodeRef)
    (block : Nat) (bh? : Option Buffer) (cow : Bool) : CowResult :=
  let clear := ext4_snapshot_excluded inode?
  let cow := if clear < 0 then false else cow
  let tb := ext4_snapshot_test_cow_bitmap s block 1
  if tb.1 < 0 then ⟨tb.1, h, bh?, false⟩
  else if tb.1 = 0 then ⟨0, h, ext4_snapshot_mark_cowed h bh?, false⟩
  else
    match s.snapMapError with
    | some code => ⟨code, h, bh?, false⟩
    | none =>
      if s.snapMapped block then ⟨0, h, ext4_snapshot_mark_cowed h bh?, false⟩
      else if !cow then ⟨1, h, bh?, false⟩
      else
        match bh? with
        | none => ⟨- EIO, h, none, false⟩
        | some b =>
          if !b.mapped then ⟨- EIO, h, some b, false⟩
          else if !(b.uptodate || s.readMakesUptodate) then
            ⟨- EIO, h, some b, false⟩
          else
            match s.getblk with
            | GetblkOutcome.fail code => ⟨code, h, some b, false⟩
            | GetblkOutcome.found =>
              ⟨0, h, ext4_snapshot_mark_cowed h (some b), false⟩
            | GetblkOutcome.allocated =>
              match s.copyError with
              | some code => ⟨code, h, some b, false⟩
              | none => ⟨0, h, ext4_snapshot_mark_cowed h (some b), true⟩

/-- `ext4_snapshot_test_and_cow(where, handle, inode, block, bh, cow)`.
Returns 1 = needs COW, 0 = COWed or no COW needed, < 0 = error. -/
def ext4_snapshot_test_and_cow (s : CowState) (h : Handle)
    (inode? : Option InodeRef) (block : Nat) (bh? : Option Buffer)
    (cow : Bool) : CowResult :=
  match s.activeSnapshotIno with
  | none => ⟨0, h, bh?, false⟩
  | some act =>
    if h.cowing then ⟨0, h, bh?, false⟩
    else if inode?.any (fun i => i.ino == act) then ⟨-EPERM, h, bh?, false⟩
    else if ext4_snapshot_test_cowed h bh? then ⟨0, h, bh?, false⟩
    else cow_end (cow_main s { h with cowing := true } inode? block bh? cow)

/-- `ext4_snapshot_get_write_access`: hook before a metadata buffer is
dirtied; calls `cow` in copy mode. -/
def ext4_snapshot_get_write_access (s : CowState) (h : Handle)
    (inode? : Option InodeRef) (bh : Buffer) : Int :=
  if !s.snapshotsEnabled then 0
  else (ext4_snapshot_test_and_cow s h inode? bh.blocknr (some bh) true).ret

/-- `ext4_snapshot_get_create_access`: hook after a new metadata block is
allocated; calls `cow` in test-only mode and converts "needs COW" (> 0)
into `-EIO`. -/
def ext4_snapshot_get_create_access (s : CowState) (h : Handle)
    (bh : Buffer) : Int :=
  if !s.snapshotsEnabled then 0
  else
    let err := (ext4_snapshot_test_and_cow s h none bh.blocknr (some bh)
      false).ret
    if 0 < err then - EIO else err

/-! ## `ext4_snapshot_test_and_move`

The move engine.  Quotas are tracked explicitly: `ownerQuota` is the block
owner's quota, `snapQuota` the snapshot file owner's.  The per-chunk mover
`ext4_snapshot_map_blocks(handle, active, blk, count, NULL, SNAPMAP_MOVE)`
goes through `get_blocks` / `alloc_branch` machinery whose quota behaviour
is exactly: a successful chunk of `n` blocks charges the snapshot owner `n`
blocks (`dquot_alloc_block_nofail` in `next3_alloc_branch_cow`'s move arm)
and maps them in the snapshot; a failed chunk refunds its own charge and
nets zero (the `failed:` arm; proved below about
`next3_alloc_branch_cow`).  The chunking outcomes themselves (how many
blocks each successive call maps, or which call fails) depend on indirect
boundaries and free space, and are drawn from `schedule`. -/

inductive MoveChunk
  | fail (code : Int)
  | moved (n : Nat)
  deriving Repr, DecidableEq

structure MoveState where
  activeSnapshotIno : Option Nat
  snapshotBlocks : Nat
  cowBitmap : Nat → Bool
  snapMapped : Nat → Bool
  cowBitmapReadFails : Bool
  snapMapError : Option Int
  ownerQuota : Int
  snapQuota : Int
  schedule : Nat → MoveChunk
  callIdx : Nat

/-- `ext4_snapshot_test_cow_bitmap` again, over the move engine's state. -/
def move_test_cow_bitmap (s : MoveState) (block count : Nat) : Int × Nat :=
  if s.snapshotBlocks ≤ block then (0, count)
  else if s.cowBitmapReadFails then (- EIO, count)
  else ((if s.cowBitmap block then 1 else 0), bitRunLen s.cowBitmap block count)

/-- One `SNAPMAP_MOVE` call: move up to `count` blocks starting at `blk`
into the snapshot.  On success the snapshot owner is charged for the moved
blocks and they become mapped; on failure the charge is refunded inside
the allocator, so the state's quotas are untouched. -/
def ext4_snapshot_map_blocks_move (s : MoveState) (blk count : Nat) :
    Int × MoveState :=
  match s.schedule s.callIdx with
  | MoveChunk.fail code => (code, { s with callIdx := s.callIdx + 1 })
  | MoveChunk.moved n =>
    let m := min n count
    if m = 0 then (0, { s with callIdx := s.callIdx + 1 })
    else
      ((m : Int),
       { s with
          callIdx := s.callIdx + 1
          snapQuota := s.snapQuota + m
          snapMapped := fun x => s.snapMapped x ||
            decide (blk ≤ x ∧ x < blk + m) })

/-- The `while (count) { err = ext4_snapshot_map_blocks(...SNAPMAP_MOVE);
if (err <= 0) goto out; moved_blks += err; blk += err; count -= err; }`
loop.  Result: `(err, state, count-at-exit, completed)`; on normal
completion `err = count = moved_blks`.  `fuel` is initialised to `count`;
each iteration moves at least one block, so fuel never runs out. -/
def moveLoop (s : MoveState) (blk count moved : Nat) :
    Nat → Int × MoveState × Nat × Bool
  | 0 => ((moved : Int), s, moved, true)
  | fuel + 1 =>
    if count = 0 then ((moved : Int), s, moved, true)
    else
      let r := ext4_snapshot_map_blocks_move s blk count
      if r.1 ≤ 0 then (r.1, r.2, count, false)
      else
        moveLoop r.2 (blk + r.1.toNat) (count - r.1.toNat) (moved + r.1.toNat)
          fuel

structure MoveResult where
  ret : Int
  state : MoveState
  handle : Handle
  maxblocks : Nat

/-- `ext4_snapshot_cow_end` for the move engine. -/
def move_end (r : MoveResult) : MoveResult :=
  { r with handle := { r.handle with cowing := false } }

/-- The body of `ext4_snapshot_test_and_move` between `cow_begin` and
`cow_end`. -/
def move_main (s : MoveState) (h : Handle) (inode? : Option InodeRef)
    (block maxblocks : Nat) (move : Bool) : MoveResult :=
  let excluded := ext4_snapshot_excluded inode?
  let move := if excluded ≠ 0 then false else move
  let tb := move_test_cow_bitmap s block maxblocks
  if tb.1 < 0 then ⟨tb.1, s, h, maxblocks⟩
  else if tb.1 = 0 then ⟨0, s, h, tb.2⟩
  else
    let count := tb.2
    match s.snapMapError with
    | some code => ⟨code, s, h, count⟩
    | none =>
      if s.snapMapped block then ⟨0, s, h, bitRunLen s.snapMapped block count⟩
      else if !move then ⟨(count : Int), s, h, count⟩
      else
        let r := moveLoop s block count 0 count
        if r.2.2.2 then
          match inode? with
          | some _ =>
            ⟨r.1,
             { r.2.1 with
                ownerQuota := r.2.1.ownerQuota - (r.2.2.1 : Int) }, h,
             r.2.2.1⟩
          | none => ⟨r.1, r.2.1, h, r.2.2.1⟩
        else ⟨r.1, r.2.1, h, r.2.2.1⟩

/-- `ext4_snapshot_test_and_move(where, handle, inode, block, maxblocks,
move)`.  `none` models the `BUG_ON(IS_COWING(handle) || inode ==
active_snapshot)` kernel panic. -/
def ext4_snapshot_test_and_move (s : MoveState) (h : Handle)
    (inode? : Option InodeRef) (block maxblocks : Nat) (move : Bool) :
    Option MoveResult :=
  match s.activeSnapshotIno with
  | none => some ⟨0, s, h, maxblocks⟩
  | some act =>
    if h.cowing || inode?.any (fun i => i.ino == act) then none
    else
      some (move_end
        (move_main s { h with cowing := true } inode? block maxblocks move))

/-! ## Concrete states used by counterexamples and witnesses -/

/-- Active snapshot is inode 1, filesystem had 100 blocks at snapshot take,
block 50 was in use then and is not yet mapped in the snapshot; every
kernel service succeeds and `ext4_getblk(SNAPMAP_COW)` allocates. -/
def cowStateCex : CowState :=
  ⟨true, some 1, 100, fun b => decide (b = 50), fun _ => false, false,
   none, false, GetblkOutcome.allocated, none⟩

def cowHandleCex : Handle := ⟨5, false⟩

def cowBufCex : Buffer := ⟨50, true, 0, true, true⟩

/-- Concrete state refuting C4 as stated: owner quota 10, snapshot quota 0;
the allocator moves one block on the first call and fails with `-ENOSPC`
on the second. -/
def moveStateCex : MoveState :=
  ⟨some 1, 100, fun _ => true, fun _ => false, false, none, 10, 0,
   fun idx => if idx = 0 then MoveChunk.moved 1 else MoveChunk.fail (-28), 0⟩

/-- Success-path witness state: the allocator moves two blocks at once. -/
def moveStateWit : MoveState :=
  ⟨some 1, 100, fun _ => true, fun _ => false, false, none, 10, 0,
   fun _ => MoveChunk.moved 2, 0⟩

def moveHandleCex : Handle := ⟨7, false⟩

end Ext4

namespace Next3


/-! ## BranchAllocator rollback: `next3_alloc_branch_cow` /
`next3_splice_branch_cow`

`fs/next3/inode.c`.  The interesting behaviour for the failure-rollback
claim is which journal/allocator/quota calls each path makes, so both
functions produce a trace of `AllocEffect`s alongside their return value.
Buffers are identified by their block numbers (`branch[n].bh =
sb_getblk(new_blocks[n-1])`, so the buffer of chain entry `i ≥ 1` is block
`new_blocks[i-1]`).  `next3_journal_dirty_metadata` fails essentially only
on an aborted handle, which is the `aborted` flag; failures of the create
and write journal-access calls are injected per step. -/

structure SnapCmd where
  move : Bool
  sync : Bool
  deriving Repr, DecidableEq

inductive AllocEffect
  | journalForget (blkno : Nat)
  | freeBlocks (first count : Nat)
  | chargeSnapQuota (n : Nat)
  | refundSnapQuota (n : Nat)
  | writeBuffer (blkno : Nat)
  | createAccess (blkno : Nat)
  | journalDirty (blkno : Nat)
  | syncDirty (blkno : Nat)
  | writeAccessParent
  | writeParentSlot (value : Nat)
  | dirtyParent
  deriving Repr, DecidableEq

structure AllocEnv where
  /-- `next3_alloc_blocks` outcome: the `new_blocks` array (indirect block
  numbers, then the first data block) and the data-block count `num`. -/
  allocOutcome : Except Int (List Nat × Nat)
  /-- Move mode: outcome of allocating only the indirect blocks. -/
  allocIndirectOutcome : Except Int (List Nat)
  /-- `next3_journal_get_create_access` failure at loop step `n`. -/
  createAccessFails : Nat → Bool
  /-- Handle aborted: every `next3_journal_dirty_metadata` fails. -/
  aborted : Bool
  /-- `next3_journal_get_write_access` on the splice parent fails. -/
  writeAccessFails : Bool

/-- The `for (n = 1; n <= indirect_blks; n++)` body of
`next3_alloc_branch_cow`: get create access (journalled mode), zero the
new buffer and link the next key, then dirty it through the journal (or
sync it to disk for `SNAPMAP_ISSYNC`).  Result: `(err, n-reached,
effects)`. -/
def alloc_branch_loop (env : AllocEnv) (cmd : SnapCmd) (newBlocks : List Nat) :
    Nat → Nat → Int × Nat × List AllocEffect
  | n, 0 => (0, n - 1, [])
  | n, fuel + 1 =>
    let b := newBlocks.getD (n - 1) 0
    let ca : List AllocEffect :=
      if cmd.sync then [] else [AllocEffect.createAccess b]
    if ¬ cmd.sync ∧ env.createAccessFails n = true then (-5, n, ca)
    else
      let eff := ca ++ [AllocEffect.writeBuffer b] ++
        (if cmd.sync then [AllocEffect.syncDirty b]
         else [AllocEffect.journalDirty b])
      if ¬ cmd.sync ∧ env.aborted = true then (-30, n, eff)
      else
        let r := alloc_branch_loop env cmd newBlocks (n + 1) fuel
        (r.1, r.2.1, eff ++ r.2.2)

/-- The `failed:` label: forget the journal reservation of every chain
buffer created so far (steps `1..n`, skipped in sync mode), free all
indirect blocks, and free the `num` data blocks — except in move mode,
where the snapshot owner's quota charge is refunded instead. -/
def alloc_branch_failed_effects (cmd : SnapCmd) (newBlocks : List Nat)
    (indirect_blks n num : Nat) : List AllocEffect :=
  (if cmd.sync then []
   else (List.range n).map
     (fun j => AllocEffect.journalForget (newBlocks.getD j 0))) ++
  (List.range indirect_blks).map
    (fun j => AllocEffect.freeBlocks (newBlocks.getD j 0) 1) ++
  (if cmd.move ∧ 0 < num then [AllocEffect.refundSnapQuota num]
   else if 0 < num then
     [AllocEffect.freeBlocks (newBlocks.getD indirect_blks 0) num]
   else [])

structure AllocBranchResult where
  err : Int
  num : Nat
  newBlocks : List Nat
  effects : List AllocEffect

def next3_alloc_branch_cow (env : AllocEnv) (cmd : SnapCmd) (iblock : Nat)
    (indirect_blks blksReq : Nat) : AllocBranchResult :=
  if cmd.move then
    match (if 0 < indirect_blks then env.allocIndirectOutcome
           else Except.ok []) with
    | Except.error e => ⟨e, 0, [], []⟩
    | Except.ok inds =>
      let newBlocks := inds ++ [iblock]
      let num := blksReq
      let pre := [AllocEffect.chargeSnapQuota blksReq]
      let r := alloc_branch_loop env cmd newBlocks 1 indirect_blks
      if r.1 < 0 then
        ⟨r.1, num, newBlocks,
         pre ++ r.2.2 ++
           alloc_branch_failed_effects cmd newBlocks indirect_blks r.2.1 num⟩
      else ⟨0, num, newBlocks, pre ++ r.2.2⟩
  else
    match env.allocOutcome with
    | Except.error e => ⟨e, 0, [], []⟩
    | Except.ok (bl, num) =>
      let r := alloc_branch_loop env cmd bl 1 indirect_blks
      if r.1 < 0 then
        ⟨r.1, num, bl,
         r.2.2 ++ alloc_branch_failed_effects cmd bl indirect_blks r.2.1 num⟩
      else ⟨0, num, bl, r.2.2⟩

/-- The `err_out:` label of `next3_splice_branch_cow`: forget the chain
buffers (journalled mode), free the `num` indirect blocks, then free the
`blks` data blocks, or in move mode refund the snapshot owner's quota
instead.  `whereKeys.getD j` is `where[j].key`. -/
def splice_err_effects (cmd : SnapCmd) (whereKeys : List Nat)
    (num blks : Nat) : List AllocEffect :=
  (if cmd.sync then []
   else (List.range num).map
     (fun j => AllocEffect.journalForget (whereKeys.getD j 0))) ++
  (List.range num).map
    (fun j => AllocEffect.freeBlocks (whereKeys.getD j 0) 1) ++
  (if cmd.move then [AllocEffect.refundSnapQuota blks]
   else [AllocEffect.freeBlocks (whereKeys.getD num 0) blks])

structure SpliceResult where
  err : Int
  /-- Whether `*where->p = where->key` (the splice pointer write into the
  parent — a slot reachable from the inode) was executed.  The source also
  writes the following sibling slots of the same parent buffer for
  `num == 0 && blks > 1`; those writes happen together with this one and
  share its journal fate, so one flag models them all. -/
  parentWritten : Bool
  effects : List AllocEffect

/-- `next3_splice_branch_cow`.  `parentInInode` is `where->bh == NULL`
(the missing link lives in the inode's `i_data`); in that case no journal
write access or dirty-metadata call is involved and `next3_mark_inode_dirty`
cannot fail, so the function succeeds. -/
def next3_splice_branch_cow (env : AllocEnv) (cmd : SnapCmd)
    (parentInInode : Bool) (whereKeys : List Nat) (num blks : Nat) :
    SpliceResult :=
  if ¬ parentInInode ∧ env.writeAccessFails = true then
    ⟨-5, false,
     [AllocEffect.writeAccessParent] ++
       splice_err_effects cmd whereKeys num blks⟩
  else
    let acc : List AllocEffect :=
      if parentInInode then [] else [AllocEffect.writeAccessParent]
    let wr := [AllocEffect.writeParentSlot (whereKeys.getD 0 0)]
    if ¬ parentInInode ∧ env.aborted = true then
      ⟨-30, true,
       acc ++ wr ++ [AllocEffect.dirtyParent] ++
         splice_err_effects cmd whereKeys num blks⟩
    else
      ⟨0, true,
       acc ++ wr ++ (if parentInInode then [] else [AllocEffect.dirtyParent])⟩

end Next3

namespace Next3

/-- Unfolding lemma: the direct-block range. -/

lemma block_to_path_direct (sf : Bool) (b i : Nat) (h : i < 12) :
    next3_block_to_path sf b i = ⟨1, [i], 12, blockPathBoundary b 12 i⟩ := by
  simp only [next3_block_to_path, NEXT3_NDIR_BLOCKS]
  rw [if_pos h]

/-- Unfolding lemma: the single-indirect range. -/

lemma block_to_path_ind (sf : Bool) (b i : Nat)
    (h1 : 12 ≤ i) (h2 : i < 12 + 2 ^ b) :
    next3_block_to_path sf b i =
      ⟨2, [NEXT3_IND_BLOCK, i - 12], 2 ^ b, blockPathBoundary b (2 ^ b) (i - 12)⟩ := by
  have c1 : ¬ (i < 12) := by omega
  have c2 : i - 12 < 2 ^ b := by omega
  simp only [next3_block_to_path, NEXT3_NDIR_BLOCKS]
  rw [if_neg c1, if_pos c2]

/-- Unfolding lemma: the double-indirect range. -/

lemma block_to_path_dind (sf : Bool) (b i : Nat)
    (h1 : 12 + 2 ^ b ≤ i) (h2 : i < 12 + 2 ^ b + 2 ^ b * 2 ^ b) :
    next3_block_to_path sf b i =
      ⟨3, [NEXT3_DIND_BLOCK, (i - 12 - 2 ^ b) >>> b,
           (i - 12 - 2 ^ b) &&& (2 ^ b - 1)], 2 ^ b,
        blockPathBoundary b (2 ^ b) (i - 12 - 2 ^ b)⟩ := by
  have hdd : (2 : Nat) ^ (b * 2) = 2 ^ b * 2 ^ b := by
    rw [pow_mul]; ring
  have hp0 : 0 < 2 ^ b := Nat.pos_pow_of_pos b (by norm_num)
  have c1 : ¬ (i < 12) := by omega
  have c2 : ¬ (i - 12 < 2 ^ b) := by omega
  have c3 : i - 12 - 2 ^ b < 2 ^ b * 2 ^ b := by omega
  simp only [next3_block_to_path, NEXT3_NDIR_BLOCKS, hdd]
  rw [if_neg c1, if_neg c2, if_pos c3]

/-- Unfolding lemma: the triple-indirect range. -/

lemma block_to_path_tind (sf : Bool) (b i : Nat)
    (h1 : 12 + 2 ^ b + 2 ^ b * 2 ^ b ≤ i)
    (h2 : i < 12 + 2 ^ b + 2 ^ b * 2 ^ b + 2 ^ b * 2 ^ b * 2 ^ b) :
    next3_block_to_path sf b i =
      ⟨4, [NEXT3_TIND_BLOCK, (i - 12 - 2 ^ b - 2 ^ b * 2 ^ b) >>> (b * 2),
           ((i - 12 - 2 ^ b - 2 ^ b * 2 ^ b) >>> b) &&& (2 ^ b - 1),
           (i - 12 - 2 ^ b - 2 ^ b * 2 ^ b) &&& (2 ^ b - 1)], 2 ^ b,
        blockPathBoundary b (2 ^ b) (i - 12 - 2 ^ b - 2 ^ b * 2 ^ b)⟩ := by
  have hdd : (2 : Nat) ^ (b * 2) = 2 ^ b * 2 ^ b := by
    rw [pow_mul]; ring
  have hp0 : 0 < 2 ^ b := Nat.pos_pow_of_pos _ (by norm_num)
  have hcond : (i - 12 - 2 ^ b - 2 ^ b * 2 ^ b) >>> (b * 2) < 2 ^ b := by
    rw [Nat.shiftRight_eq_div_pow, hdd,
      Nat.div_lt_iff_lt_mul (Nat.mul_pos hp0 hp0)]
    calc i - 12 - 2 ^ b - 2 ^ b * 2 ^ b < 2 ^ b * 2 ^ b * 2 ^ b := by omega
    _ = 2 ^ b * (2 ^ b * 2 ^ b) := by ring
  have c1 : ¬ (i < 12) := by omega
  have c2 : ¬ (i - 12 < 2 ^ b) := by omega
  have c3 : ¬ (i - 12 - 2 ^ b < 2 ^ b * 2 ^ b) := by omega
  simp only [next3_block_to_path, NEXT3_NDIR_BLOCKS, hdd]
  rw [if_neg c1, if_neg c2, if_neg c3, if_pos hcond]

/-- Unfolding lemma: past the triple-indirect range on a regular inode the
resolver fails with depth 0. -/

lemma block_to_path_out_of_range (b i : Nat)
    (h1 : 12 + 2 ^ b + 2 ^ b * 2 ^ b + 2 ^ b * 2 ^ b * 2 ^ b ≤ i) :
    (next3_block_to_path false b i).depth = 0 := by
  have hdd : (2 : Nat) ^ (b * 2) = 2 ^ b * 2 ^ b := by
    rw [pow_mul]; ring
  have hp0 : 0 < 2 ^ b := Nat.pos_pow_of_pos _ (by norm_num)
  have hcond : ¬ (i - 12 - 2 ^ b - 2 ^ b * 2 ^ b) >>> (b * 2) < 2 ^ b := by
    rw [Nat.shiftRight_eq_div_pow, hdd, not_lt,
      Nat.le_div_iff_mul_le (Nat.mul_pos hp0 hp0)]
    calc 2 ^ b * (2 ^ b * 2 ^ b) = 2 ^ b * 2 ^ b * 2 ^ b := by ring
    _ ≤ i - 12 - 2 ^ b - 2 ^ b * 2 ^ b := by omega
  have c1 : ¬ (i < 12) := by omega
  have c2 : ¬ (i - 12 < 2 ^ b) := by omega
  have c3 : ¬ (i - 12 - 2 ^ b < 2 ^ b * 2 ^ b) := by omega
  simp only [next3_block_to_path, NEXT3_NDIR_BLOCKS, hdd]
  rw [if_neg c1, if_neg c2, if_neg c3, if_neg hcond, if_neg (by simp)]

/-- **C5.** `next3_block_to_path` partitions the logical block space as
specified: `iblock ∈ [0, 12)` gives depth 1 with offsets `[iblock]`; the next
`2^b` blocks give depth 2 through the IND slot; the next `(2^b)²` blocks depth
3 through the DIND slot; the next `(2^b)³` blocks depth 4 through the TIND
slot; with block size 1024 (`b = 8`, so `addr_per_block = 256`),
`resolve 65804 = (depth 4, offsets [14, 0, 0, 0])`; and an `iblock` beyond the
representable range of a non-snapshot inode yields depth 0 (out of range). -/

theorem C5_block_to_path_partition (sf : Bool) (b i : Nat) :
    (i < 12 →
      (next3_block_to_path sf b i).depth = 1 ∧
      (next3_block_to_path sf b i).offsets = [i]) ∧
    (12 ≤ i → i < 12 + 2 ^ b →
      (next3_block_to_path sf b i).depth = 2 ∧
      (next3_block_to_path sf b i).offsets = [NEXT3_IND_BLOCK, i - 12]) ∧
    (12 + 2 ^ b ≤ i → i < 12 + 2 ^ b + 2 ^ b * 2 ^ b →
      (next3_block_to_path sf b i).depth = 3 ∧
      (next3_block_to_path sf b i).offsets =
        [NEXT3_DIND_BLOCK, (i - 12 - 2 ^ b) / 2 ^ b,
         (i - 12 - 2 ^ b) % 2 ^ b]) ∧
    (12 + 2 ^ b + 2 ^ b * 2 ^ b ≤ i →
     i < 12 + 2 ^ b + 2 ^ b * 2 ^ b + 2 ^ b * 2 ^ b * 2 ^ b →
      (next3_block_to_path sf b i).depth = 4 ∧
      (next3_block_to_path sf b i).offsets =
        [NEXT3_TIND_BLOCK, (i - 12 - 2 ^ b - 2 ^ b * 2 ^ b) / (2 ^ b * 2 ^ b),
         (i - 12 - 2 ^ b - 2 ^ b * 2 ^ b) / 2 ^ b % 2 ^ b,
         (i - 12 - 2 ^ b - 2 ^ b * 2 ^ b) % 2 ^ b]) ∧
    (12 + 2 ^ b + 2 ^ b * 2 ^ b + 2 ^ b * 2 ^ b * 2 ^ b ≤ i →
      (next3_block_to_path false b i).depth = 0) ∧
    next3_block_to_path false 8 65804 = ⟨4, [14, 0, 0, 0], 256, 255⟩ := by
  have hdd : (2 : Nat) ^ (b * 2) = 2 ^ b * 2 ^ b := by
    rw [pow_mul]; ring
  refine ⟨?_, ?_, ?_, ?_, ?_, ?_⟩
  · intro h
    rw [block_to_path_direct sf b i h]
    exact ⟨rfl, rfl⟩
  · intro h1 h2
    rw [block_to_path_ind sf b i h1 h2]
    exact ⟨rfl, rfl⟩
  · intro h1 h2
    rw [block_to_path_dind sf b i h1 h2]
    refine ⟨rfl, ?_⟩
    simp only [Nat.shiftRight_eq_div_pow, Nat.and_pow_two_sub_one_eq_mod]
  · intro h1 h2
    rw [block_to_path_tind sf b i h1 h2]
    refine ⟨rfl, ?_⟩
    simp only [Nat.shiftRight_eq_div_pow, Nat.and_pow_two_sub_one_eq_mod, hdd]
  · intro h1
    exact block_to_path_out_of_range b i h1
  · rfl

/-- Witness for C5 at `b = 8`: each range hypothesis discharged at a concrete
block number. -/

theorem C5_block_to_path_partition_witness :
    (next3_block_to_path false 8 65804).depth = 4 ∧
    (next3_block_to_path false 8 5).offsets = [5] ∧
    (next3_block_to_path false 8 100).offsets = [12, 88] ∧
    (next3_block_to_path false 8 300).depth = 3 ∧
    (next3_block_to_path false 8 16843020).depth = 0 :=
  ⟨((C5_block_to_path_partition false 8 65804).2.2.2.1 (by norm_num)
      (by norm_num)).1,
   ((C5_block_to_path_partition false 8 5).1 (by norm_num)).2,
   ((C5_block_to_path_partition false 8 100).2.1 (by norm_num) (by norm_num)).2,
   ((C5_block_to_path_partition false 8 300).2.2.1 (by norm_num)
      (by norm_num)).1,
   (C5_block_to_path_partition false 8 16843020).2.2.2.2.1 (by norm_num)⟩

/-! ## `next3_blks_to_allocate`

Counts the direct blocks to allocate for a branch: if indirect blocks are
still needed (`k > 0`) the whole run is capped at `blocks_to_boundary + 1`;
otherwise the run starts at the mapped slot and extends over consecutive
zero leaf slots, never beyond the boundary.  `slotAt j` models
`le32_to_cpu(*(branch[0].p + j))`, the leaf slot `j` positions after the
mapped one. -/

lemma leafSlotsAfter_eq (finalv l : Nat) :
    leafSlotsAfter finalv l = finalv - (l + 1) := by
  have h : (Finset.range finalv).filter (fun j => l < j) =
      Finset.Ico (l + 1) finalv := by
    ext x
    simp only [Finset.mem_filter, Finset.mem_range, Finset.mem_Ico]
    omega
  rw [leafSlotsAfter, h, Nat.card_Ico]

lemma blks_to_allocate_loop_le (slotAt : Nat → Nat) (blks boundary : Nat) :
    ∀ fuel count, count ≤ boundary + 1 →
      next3_blks_to_allocate_loop slotAt blks boundary count fuel ≤
        boundary + 1 := by
  intro fuel
  induction fuel with
  | zero => intro count h; exact h
  | succ n ih =>
    intro count h
    rw [next3_blks_to_allocate_loop]
    split
    · exact ih (count + 1) (by omega)
    · exact h

lemma blks_to_allocate_loop_pos (slotAt : Nat → Nat) (blks boundary : Nat) :
    ∀ fuel count, count ≤
      next3_blks_to_allocate_loop slotAt blks boundary count fuel := by
  intro fuel
  induction fuel with
  | zero => intro count; exact Nat.le_refl _
  | succ n ih =>
    intro count
    rw [next3_blks_to_allocate_loop]
    split
    · exact Nat.le_trans (by omega) (ih (count + 1))
    · exact Nat.le_refl _

/-- `next3_blks_to_allocate` never exceeds `boundary + 1` slots starting at
the mapped position. -/

lemma blks_to_allocate_le (slotAt : Nat → Nat) (k blks boundary : Nat) :
    next3_blks_to_allocate slotAt k blks boundary ≤ boundary + 1 := by
  rw [next3_blks_to_allocate]
  split
  · split <;> omega
  · exact blks_to_allocate_loop_le slotAt blks boundary blks 1 (by omega)

/-- Unfolding lemma: the snapshot-inode extra triple-indirect ranges. -/

lemma block_to_path_snap_tind (b i : Nat)
    (h1 : 12 + 2 ^ b + 2 ^ b * 2 ^ b + 2 ^ b * 2 ^ b * 2 ^ b ≤ i)
    (h2 : (i - 12 - 2 ^ b - 2 ^ b * 2 ^ b) >>> (b * 3) <
      NEXT3_SNAPSHOT_NTIND_BLOCKS) :
    next3_block_to_path true b i =
      ⟨4, [NEXT3_TIND_BLOCK + (i - 12 - 2 ^ b - 2 ^ b * 2 ^ b) >>> (b * 3),
           (i - 12 - 2 ^ b - 2 ^ b * 2 ^ b -
             ((i - 12 - 2 ^ b - 2 ^ b * 2 ^ b) >>> (b * 3)) <<< (b * 3)) >>>
             (b * 2),
           ((i - 12 - 2 ^ b - 2 ^ b * 2 ^ b -
             ((i - 12 - 2 ^ b - 2 ^ b * 2 ^ b) >>> (b * 3)) <<< (b * 3)) >>>
             b) &&& (2 ^ b - 1),
           (i - 12 - 2 ^ b - 2 ^ b * 2 ^ b -
             ((i - 12 - 2 ^ b - 2 ^ b * 2 ^ b) >>> (b * 3)) <<< (b * 3)) &&&
             (2 ^ b - 1)], 2 ^ b,
        blockPathBoundary b (2 ^ b)
          (i - 12 - 2 ^ b - 2 ^ b * 2 ^ b -
            ((i - 12 - 2 ^ b - 2 ^ b * 2 ^ b) >>> (b * 3)) <<< (b * 3))⟩ := by
  have hdd : (2 : Nat) ^ (b * 2) = 2 ^ b * 2 ^ b := by
    rw [pow_mul]; ring
  have hp0 : 0 < 2 ^ b := Nat.pos_pow_of_pos _ (by norm_num)
  have hcond : ¬ (i - 12 - 2 ^ b - 2 ^ b * 2 ^ b) >>> (b * 2) < 2 ^ b := by
    rw [Nat.shiftRight_eq_div_pow, hdd, not_lt,
      Nat.le_div_iff_mul_le (Nat.mul_pos hp0 hp0)]
    calc 2 ^ b * (2 ^ b * 2 ^ b) = 2 ^ b * 2 ^ b * 2 ^ b := by ring
    _ ≤ i - 12 - 2 ^ b - 2 ^ b * 2 ^ b := by omega
  have c1 : ¬ (i < 12) := by omega
  have c2 : ¬ (i - 12 < 2 ^ b) := by omega
  have c3 : ¬ (i - 12 - 2 ^ b < 2 ^ b * 2 ^ b) := by omega
  simp only [next3_block_to_path, NEXT3_NDIR_BLOCKS, hdd]
  rw [if_neg c1, if_neg c2, if_neg c3, if_neg hcond, if_pos ⟨trivial, h2⟩]

/-- Unfolding lemma: a snapshot inode past all `NTIND` triple-indirect
ranges also fails with depth 0. -/

lemma block_to_path_snap_out_of_range (b i : Nat)
    (h1 : 12 + 2 ^ b + 2 ^ b * 2 ^ b + 2 ^ b * 2 ^ b * 2 ^ b ≤ i)
    (h2 : ¬ (i - 12 - 2 ^ b - 2 ^ b * 2 ^ b) >>> (b * 3) <
      NEXT3_SNAPSHOT_NTIND_BLOCKS) :
    (next3_block_to_path true b i).depth = 0 := by
  have hdd : (2 : Nat) ^ (b * 2) = 2 ^ b * 2 ^ b := by
    rw [pow_mul]; ring
  have hp0 : 0 < 2 ^ b := Nat.pos_pow_of_pos _ (by norm_num)
  have hcond : ¬ (i - 12 - 2 ^ b - 2 ^ b * 2 ^ b) >>> (b * 2) < 2 ^ b := by
    rw [Nat.shiftRight_eq_div_pow, hdd, not_lt,
      Nat.le_div_iff_mul_le (Nat.mul_pos hp0 hp0)]
    calc 2 ^ b * (2 ^ b * 2 ^ b) = 2 ^ b * 2 ^ b * 2 ^ b := by ring
    _ ≤ i - 12 - 2 ^ b - 2 ^ b * 2 ^ b := by omega
  have c1 : ¬ (i < 12) := by omega
  have c2 : ¬ (i - 12 < 2 ^ b) := by omega
  have c3 : ¬ (i - 12 - 2 ^ b < 2 ^ b * 2 ^ b) := by omega
  simp only [next3_block_to_path, NEXT3_NDIR_BLOCKS, hdd]
  rw [if_neg c1, if_neg c2, if_neg c3, if_neg hcond,
    if_neg (fun hc => h2 hc.2)]

/-- **C8.** For every in-range `iblock` (resolver depth ≠ 0; realistic
`addr_per_block = 2^b ≥ 12`), the `boundary` value returned by
`next3_block_to_path` equals the number of contiguous leaf slots of the
deepest level that remain after the mapped position (slot indices strictly
between the last offset and the level slot count `finalv`), and it caps
`next3_blks_to_allocate` so that a batch starting at the mapped position
never crosses the indirect-block boundary: `l + count ≤ finalv`. -/

theorem C8_boundary_semantics (sf : Bool) (b i : Nat) (hb : 12 ≤ 2 ^ b)
    (hd : (next3_block_to_path sf b i).depth ≠ 0) :
    ∃ l, (next3_block_to_path sf b i).offsets.getLast? = some l ∧
      (next3_block_to_path sf b i).boundary =
        (leafSlotsAfter (next3_block_to_path sf b i).finalv l : Int) ∧
      ∀ slotAt k blks,
        l + next3_blks_to_allocate slotAt k blks
            ((next3_block_to_path sf b i).boundary).toNat ≤
          (next3_block_to_path sf b i).finalv := by
  have hp0 : 0 < 2 ^ b := Nat.pos_pow_of_pos _ (by norm_num)
  have key : ∀ (dep : Nat) (off : List Nat) (finalv l : Nat),
      off.getLast? = some l → l < finalv →
      next3_block_to_path sf b i =
        ⟨dep, off, finalv, (finalv : Int) - 1 - (l : Int)⟩ →
      (∃ l', (next3_block_to_path sf b i).offsets.getLast? = some l' ∧
        (next3_block_to_path sf b i).boundary =
          (leafSlotsAfter (next3_block_to_path sf b i).finalv l' : Int) ∧
        ∀ slotAt k blks,
          l' + next3_blks_to_allocate slotAt k blks
              ((next3_block_to_path sf b i).boundary).toNat ≤
            (next3_block_to_path sf b i).finalv) := by
    intro dep off finalv l hlast hlf heq
    rw [heq]
    dsimp only
    refine ⟨l, hlast, ?_, ?_⟩
    · rw [leafSlotsAfter_eq]
      have : l + 1 ≤ finalv := hlf
      push_cast [Nat.cast_sub this]
      ring
    · intro slotAt k blks
      have hcap := blks_to_allocate_le slotAt k blks
        (((finalv : Int) - 1 - (l : Int)).toNat)
      omega
  by_cases h1 : i < 12
  · have hm : i &&& (2 ^ b - 1) = i := by
      rw [Nat.and_pow_two_sub_one_eq_mod, Nat.mod_eq_of_lt (by omega)]
    refine key 1 [i] 12 i rfl h1 ?_
    rw [block_to_path_direct sf b i h1]
    simp only [blockPathBoundary, hm]
  · by_cases h2 : i < 12 + 2 ^ b
    · have hm : (i - 12) &&& (2 ^ b - 1) = i - 12 := by
        rw [Nat.and_pow_two_sub_one_eq_mod, Nat.mod_eq_of_lt (by omega)]
      refine key 2 [NEXT3_IND_BLOCK, i - 12] (2 ^ b) (i - 12) rfl
        (by omega) ?_
      rw [block_to_path_ind sf b i (by omega) h2]
      simp only [blockPathBoundary, hm]
    · by_cases h3 : i < 12 + 2 ^ b + 2 ^ b * 2 ^ b
      · have hm : (i - 12 - 2 ^ b) &&& (2 ^ b - 1) =
            (i - 12 - 2 ^ b) % 2 ^ b := Nat.and_pow_two_sub_one_eq_mod _ _
        refine key 3
          [NEXT3_DIND_BLOCK, (i - 12 - 2 ^ b) >>> b,
           (i - 12 - 2 ^ b) &&& (2 ^ b - 1)] (2 ^ b)
          ((i - 12 - 2 ^ b) &&& (2 ^ b - 1)) rfl
          (by rw [hm]; exact Nat.mod_lt _ hp0) ?_
        rw [block_to_path_dind sf b i (by omega) h3]
        simp only [blockPathBoundary]
      · by_cases h4 : i < 12 + 2 ^ b + 2 ^ b * 2 ^ b + 2 ^ b * 2 ^ b * 2 ^ b
        · have hm : (i - 12 - 2 ^ b - 2 ^ b * 2 ^ b) &&& (2 ^ b - 1) =
              (i - 12 - 2 ^ b - 2 ^ b * 2 ^ b) % 2 ^ b :=
            Nat.and_pow_two_sub_one_eq_mod _ _
          refine key 4
            [NEXT3_TIND_BLOCK, (i - 12 - 2 ^ b - 2 ^ b * 2 ^ b) >>> (b * 2),
             ((i - 12 - 2 ^ b - 2 ^ b * 2 ^ b) >>> b) &&& (2 ^ b - 1),
             (i - 12 - 2 ^ b - 2 ^ b * 2 ^ b) &&& (2 ^ b - 1)] (2 ^ b)
            ((i - 12 - 2 ^ b - 2 ^ b * 2 ^ b) &&& (2 ^ b - 1)) rfl
            (by rw [hm]; exact Nat.mod_lt _ hp0) ?_
          rw [block_to_path_tind sf b i (by omega) h4]
          simp only [blockPathBoundary]
        · cases sf with
          | false =>
            exact absurd (block_to_path_out_of_range b i (by omega)) hd
          | true =>
            by_cases h5 : (i - 12 - 2 ^ b - 2 ^ b * 2 ^ b) >>> (b * 3) <
              NEXT3_SNAPSHOT_NTIND_BLOCKS
            · have hm : (i - 12 - 2 ^ b - 2 ^ b * 2 ^ b -
                  ((i - 12 - 2 ^ b - 2 ^ b * 2 ^ b) >>> (b * 3)) <<<
                    (b * 3)) &&& (2 ^ b - 1) =
                  (i - 12 - 2 ^ b - 2 ^ b * 2 ^ b -
                  ((i - 12 - 2 ^ b - 2 ^ b * 2 ^ b) >>> (b * 3)) <<<
                    (b * 3)) % 2 ^ b :=
                Nat.and_pow_two_sub_one_eq_mod _ _
              refine key 4
                [NEXT3_TIND_BLOCK +
                   (i - 12 - 2 ^ b - 2 ^ b * 2 ^ b) >>> (b * 3),
                 (i - 12 - 2 ^ b - 2 ^ b * 2 ^ b -
                   ((i - 12 - 2 ^ b - 2 ^ b * 2 ^ b) >>> (b * 3)) <<<
                     (b * 3)) >>> (b * 2),
                 ((i - 12 - 2 ^ b - 2 ^ b * 2 ^ b -
                   ((i - 12 - 2 ^ b - 2 ^ b * 2 ^ b) >>> (b * 3)) <<<
                     (b * 3)) >>> b) &&& (2 ^ b - 1),
                 (i - 12 - 2 ^ b - 2 ^ b * 2 ^ b -
                   ((i - 12 - 2 ^ b - 2 ^ b * 2 ^ b) >>> (b * 3)) <<<
                     (b * 3)) &&& (2 ^ b - 1)] (2 ^ b)
                ((i - 12 - 2 ^ b - 2 ^ b * 2 ^ b -
                   ((i - 12 - 2 ^ b - 2 ^ b * 2 ^ b) >>> (b * 3)) <<<
                     (b * 3)) &&& (2 ^ b - 1)) rfl
                (by rw [hm]; exact Nat.mod_lt _ hp0) ?_
              rw [block_to_path_snap_tind b i (by omega) h5]
              simp only [blockPathBoundary]
            · exact absurd
                (block_to_path_snap_out_of_range b i (by omega) h5) hd

/-- Witness for C8: scenario S2, `b = 8`, `iblock = 65804`. -/

theorem C8_boundary_semantics_witness :
    ∃ l, (next3_block_to_path false 8 65804).offsets.getLast? = some l ∧
      (next3_block_to_path false 8 65804).boundary =
        (leafSlotsAfter (next3_block_to_path false 8 65804).finalv l : Int) ∧
      ∀ slotAt k blks,
        l + next3_blks_to_allocate slotAt k blks
            ((next3_block_to_path false 8 65804).boundary).toNat ≤
          (next3_block_to_path false 8 65804).finalv :=
  C8_boundary_semantics false 8 65804 (by norm_num) (by decide)


/-! ## TruncateEngine credits: `blocks_for_truncate` / `start_transaction`

`fs/next3/inode.c`.  `NEXT3_MAX_TRANS_DATA` and
`NEXT3_DATA_TRANS_BLOCKS(sb)` are header macros (not in the given tree), so
they are parameters here; the only fact used about them is
`2 ≤ NEXT3_MAX_TRANS_DATA`, true of any real configuration (ext3/next3 use
64 pages). -/

/-- **C9.** The truncate engine's opening credit budget is exactly the
inode's block count converted to filesystem blocks
(`i_blocks >> (blocksize_bits - 9)`), raised to a minimum of 2, clamped to
`MAX_TRANS_DATA`, plus the fixed `DATA_TRANS_BLOCKS` reserve — for every
inode. -/

theorem C9_truncate_credits (maxTransData dataTransBlocks : Nat)
    (i_blocks blocksize_bits : Nat) (h : 2 ≤ maxTransData) :
    start_transaction_credits maxTransData dataTransBlocks i_blocks
        blocksize_bits =
      dataTransBlocks +
        min maxTransData (max 2 (i_blocks >>> (blocksize_bits - 9))) := by
  simp only [start_transaction_credits, blocks_for_truncate]
  split <;> split <;> omega

/-- Witness for C9: a 4096-byte-block inode of 2048 sectors with the stock
ext3 constants (`MAX_TRANS_DATA = 64`, `DATA_TRANS_BLOCKS = 8 + 2`). -/

theorem C9_truncate_credits_witness :
    start_transaction_credits 64 10 2048 12 = 10 + min 64 (max 2 256) :=
  C9_truncate_credits 64 10 2048 12 (by norm_num)

/-! ## Allocation-goal heuristics: `next3_find_near` / `next3_find_goal`

`fs/next3/inode.c` (CONFIG_NEXT3_FS_SNAPSHOT_FILE_GOAL build).  An
`Indirect` chain position is modelled by the contents of its holding array
(`ind->bh->b_data` when `bh` is set, else the inode's `i_data`), the index
of `ind->p` in that array, and the holding buffer's own block number
(`none` when the pointer lives in the inode). -/

lemma findPrevNonzero_none (slots : List Nat) :
    ∀ pos, (∀ j, j < pos → slots.getD j 0 = 0) →
      findPrevNonzero slots pos = none := by
  intro pos
  induction pos with
  | zero => intro _; rfl
  | succ p ih =>
    intro h
    rw [findPrevNonzero]
    split
    · exact absurd (h p (by omega)) (by assumption)
    · exact ih (fun j hj => h j (by omega))

lemma findPrevNonzero_found (slots : List Nat) :
    ∀ pos j, j < pos → slots.getD j 0 ≠ 0 →
      (∀ k, j < k → k < pos → slots.getD k 0 = 0) →
      findPrevNonzero slots pos = some (slots.getD j 0) := by
  intro pos
  induction pos with
  | zero => intro j hj; omega
  | succ p ih =>
    intro j hj hnz hrest
    rw [findPrevNonzero]
    split
    · rename_i hcond
      by_cases hjp : j = p
      · rw [hjp]
      · exact absurd (hrest p (by omega) (by omega)) hcond
    · rename_i hcond
      by_cases hjp : j = p
      · subst hjp
        exact absurd hnz hcond
      · exact ih j (by omega) hnz (fun k h1 h2 => hrest k h1 (by omega))

/-- The counterexample for C7 (see `goalInodeCex`): the inode remembers
`last_alloc_logical_block == iblock - 1 = 0`, yet the goal returned is the
nearest-left non-zero pointer (7), not
`last_alloc_physical_block + 1 = 1`. -/

theorem C7_find_goal_counterexample :
    goalInodeCex.allocInfo = some ⟨0, 0⟩ ∧
    next3_find_goal goalEnvCex goalInodeCex 1 goalIndCex ≠ 0 + 1 := by
  constructor
  · rfl
  · decide

/-- **C7 (amended).** `next3_find_goal` returns
`last_alloc_physical_block + 1` when the inode remembers
`last_alloc_logical_block == iblock - 1` *and the remembered physical block
is non-zero*; failing that, for snapshot inodes it returns the source
physical block itself (`SNAPSHOT_BLOCK(iblock) = iblock`); otherwise it
returns `next3_find_near`, which yields the nearest non-zero pointer to the
left of the current position, failing that the holding indirect block's own
address, and failing that
`group_start(inode.group) + (pid mod 16) * (blocks_per_group / 16)`. -/

theorem C7_find_goal (env : NearEnv) (inode : GoalInode) (block : Nat)
    (ind : IndirectPos) :
    (∀ bi, inode.allocInfo = some bi →
      block = bi.last_alloc_logical_block + 1 →
      bi.last_alloc_physical_block ≠ 0 →
      next3_find_goal env inode block ind =
        bi.last_alloc_physical_block + 1) ∧
    (findGoalSeqHeuristic inode.allocInfo block = none →
      inode.snapfile = true →
      next3_find_goal env inode block ind = block) ∧
    (findGoalSeqHeuristic inode.allocInfo block = none →
      inode.snapfile = false →
      next3_find_goal env inode block ind = next3_find_near env inode ind) ∧
    (∀ j, j < ind.pos → ind.slots.getD j 0 ≠ 0 →
      (∀ k, j < k → k < ind.pos → ind.slots.getD k 0 = 0) →
      next3_find_near env inode ind = ind.slots.getD j 0) ∧
    (∀ blocknr, (∀ j, j < ind.pos → ind.slots.getD j 0 = 0) →
      ind.bh = some blocknr → next3_find_near env inode ind = blocknr) ∧
    ((∀ j, j < ind.pos → ind.slots.getD j 0 = 0) → ind.bh = none →
      next3_find_near env inode ind =
        env.groupFirstBlockNo inode.blockGroup +
          (env.pid % 16) * (env.blocksPerGroup / 16)) := by
  refine ⟨?_, ?_, ?_, ?_, ?_, ?_⟩
  · intro bi hbi hlog hphys
    rw [next3_find_goal, hbi]
    simp only [findGoalSeqHeuristic]
    rw [if_pos ⟨hlog, hphys⟩]
  · intro hseq hsf
    rw [next3_find_goal, hseq, hsf]
    simp
  · intro hseq hsf
    rw [next3_find_goal, hseq, hsf]
    simp
  · intro j hj hnz hrest
    rw [next3_find_near, findPrevNonzero_found ind.slots ind.pos j hj hnz hrest]
  · intro blocknr hzero hbh
    rw [next3_find_near, findPrevNonzero_none ind.slots ind.pos hzero, hbh]
  · intro hzero hbh
    rw [next3_find_near, findPrevNonzero_none ind.slots ind.pos hzero, hbh]

/-- Witness for C7 (amended), exercising the sequential heuristic, the
snapshot branch and all three `find_near` fallbacks at concrete states. -/

theorem C7_find_goal_witness :
    next3_find_goal goalEnvCex ⟨0, false, some ⟨4, 99⟩⟩ 5 goalIndCex =
      99 + 1 ∧
    next3_find_goal goalEnvCex ⟨0, true, none⟩ 5 goalIndCex = 5 ∧
    next3_find_goal goalEnvCex goalInodeCex 1 goalIndCex =
      next3_find_near goalEnvCex goalInodeCex goalIndCex ∧
    next3_find_near goalEnvCex goalInodeCex goalIndCex = 7 ∧
    next3_find_near goalEnvCex goalInodeCex ⟨[0, 0, 0], 2, some 42⟩ = 42 ∧
    next3_find_near goalEnvCex goalInodeCex ⟨[0, 0, 0], 2, none⟩ =
      1 + 3 * 2048 :=
  ⟨(C7_find_goal goalEnvCex ⟨0, false, some ⟨4, 99⟩⟩ 5 goalIndCex).1
      ⟨4, 99⟩ rfl rfl (by norm_num),
   (C7_find_goal goalEnvCex ⟨0, true, none⟩ 5 goalIndCex).2.1 rfl rfl,
   (C7_find_goal goalEnvCex goalInodeCex 1 goalIndCex).2.2.1 rfl rfl,
   (C7_find_goal goalEnvCex goalInodeCex 1 goalIndCex).2.2.2.1 0 (by decide)
      (by decide)
      (fun k h1 h2 => by
        have h2' : k < 1 := h2
        omega),
   (C7_find_goal goalEnvCex goalInodeCex 1 ⟨[0, 0, 0], 2, some 42⟩).2.2.2.2.1
      42
      (fun j hj => by
        have hj' : j < 2 := hj
        interval_cases j <;> rfl)
      rfl,
   (C7_find_goal goalEnvCex goalInodeCex 1 ⟨[0, 0, 0], 2, none⟩).2.2.2.2.2
      (fun j hj => by
        have hj' : j < 2 := hj
        interval_cases j <;> rfl)
      rfl⟩

/-! ## `next3_truncate` / `next3_can_truncate`

`fs/next3/inode.c`.  The truncate engine is modelled as a state transformer
on an inode record plus a trace of externally visible effects (journal
calls, block frees).  Wherever the C code consults a fallible service or
the branch walker, the outcome is drawn from a `TruncEnv` record.  The
deep freeing machinery (`next3_find_shared` / `next3_free_branches`) is
modelled coarsely: its outcome (which subtree root gets detached) comes
from the environment and its work is recorded as effects, which is enough
to settle frame claims about the entry-point guards. -/

/-- **C10.** `next3_truncate` silently leaves the inode's block tree, size
and block count unchanged and frees no blocks when its unstated
preconditions fail: for an inode on the snapshot list it returns
immediately (no effects at all); and when `next3_can_truncate` denies the
inode — append-only or immutable, a fast symlink, or neither regular file
nor directory nor symlink — it performs no truncation (the inode state is
untouched and the only possible effect is removing a stale orphan-list
entry). -/

theorem C10_truncate_guards (env : TruncEnv) (i : TruncInode) :
    (i.onSnapshotList = true → next3_truncate env i = (i, [])) ∧
    (i.onSnapshotList = false → next3_can_truncate i = false →
      (next3_truncate env i).1 = i ∧
      ∀ e, e ∈ (next3_truncate env i).2 → e = TruncEffect.orphanDel) ∧
    ((i.isAppend = true ∨ i.isImmutable = true) →
      next3_can_truncate i = false) ∧
    (i.mode = FileMode.lnk → i.fastSymlink = true →
      next3_can_truncate i = false) ∧
    (i.mode = FileMode.other → next3_can_truncate i = false) := by
  refine ⟨?_, ?_, ?_, ?_, ?_⟩
  · intro h
    rw [next3_truncate, if_pos h]
  · intro hs hc
    rw [next3_truncate, if_neg (by rw [hs]; exact Bool.false_ne_true),
      if_pos (by rw [hc]; exact Bool.false_ne_true)]
    refine ⟨rfl, ?_⟩
    intro e he
    by_cases hn : i.nlink ≠ 0
    · rw [if_pos hn] at he
      simpa using he
    · rw [if_neg hn] at he
      simp at he
  · intro h
    rw [next3_can_truncate]
    rcases h with h | h <;> rw [h] <;> simp
  · intro hm hf
    rw [next3_can_truncate, hm, hf]
    cases ha : i.isAppend <;> cases hi : i.isImmutable <;> simp
  · intro hm
    rw [next3_can_truncate, hm]
    cases ha : i.isAppend <;> cases hi : i.isImmutable <;> simp

/-- Witness for C10: a snapshot-list inode, and an immutable regular file
with a stale orphan entry. -/

theorem C10_truncate_guards_witness :
    next3_truncate ⟨false, false, false, 10, 8, 0, 0⟩
        ⟨true, false, false, FileMode.reg, false, false, 4096, 8,
         List.replicate 15 0, 1⟩ =
      (⟨true, false, false, FileMode.reg, false, false, 4096, 8,
        List.replicate 15 0, 1⟩, []) ∧
    (next3_truncate ⟨false, false, false, 10, 8, 0, 0⟩
        ⟨false, false, true, FileMode.reg, false, false, 4096, 8,
         List.replicate 15 0, 1⟩).1 =
      ⟨false, false, true, FileMode.reg, false, false, 4096, 8,
       List.replicate 15 0, 1⟩ :=
  ⟨(C10_truncate_guards ⟨false, false, false, 10, 8, 0, 0⟩
      ⟨true, false, false, FileMode.reg, false, false, 4096, 8,
       List.replicate 15 0, 1⟩).1 rfl,
   ((C10_truncate_guards ⟨false, false, false, 10, 8, 0, 0⟩
      ⟨false, false, true, FileMode.reg, false, false, 4096, 8,
       List.replicate 15 0, 1⟩).2.1 rfl
      ((C10_truncate_guards ⟨false, false, false, 10, 8, 0, 0⟩
        ⟨false, false, true, FileMode.reg, false, false, 4096, 8,
         List.replicate 15 0, 1⟩).2.2.1 (Or.inr rfl))).1⟩

end Next3

namespace Ext4

lemma cow_end_ret (r : CowResult) : (cow_end r).ret = r.ret := rfl

lemma cow_end_buffer (r : CowResult) : (cow_end r).buffer = r.buffer := rfl

/-- Unfolding lemma: with an active snapshot and all three entry guards
down, `test_and_cow` is `cow_begin`; body; `cow_end`. -/

lemma test_and_cow_main (s : CowState) (h : Handle)
    (inode? : Option InodeRef) (block : Nat) (bh? : Option Buffer)
    (cow : Bool) (act : Nat) (hact : s.activeSnapshotIno = some act)
    (hcow : h.cowing = false)
    (hnot : inode?.any (fun i => i.ino == act) = false)
    (hcache : ext4_snapshot_test_cowed h bh? = false) :
    ext4_snapshot_test_and_cow s h inode? block bh? cow =
      cow_end (cow_main s { h with cowing := true } inode? block bh? cow) := by
  simp only [ext4_snapshot_test_and_cow, hact, hcow, hnot, hcache]
  simp

/-- Classification of the body's return value when no kernel service
fails: 1 exactly on the in-bitmap, unmapped, effectively-test-only path,
0 otherwise. -/

lemma cow_main_classify (s : CowState) (h : Handle)
    (inode? : Option InodeRef) (block : Nat) (b : Buffer) (cow : Bool)
    (hbr : s.cowBitmapReadFails = false)
    (hmap : s.snapMapError = none)
    (hbm : b.mapped = true) (hbu : b.uptodate = true)
    (hgb : s.getblk = GetblkOutcome.allocated)
    (hcp : s.copyError = none) :
    (cow_main s h inode? block (some b) cow).ret =
      if block < s.snapshotBlocks ∧ s.cowBitmap block = true ∧
          s.snapMapped block = false ∧
          (cow = false ∨ ext4_snapshot_excluded inode? < 0) then 1
      else 0 := by
  by_cases h1 : s.snapshotBlocks ≤ block <;>
    by_cases h2 : s.cowBitmap block = true <;>
      by_cases h3 : s.snapMapped block = true <;>
        by_cases he : ext4_snapshot_excluded inode? < 0 <;>
          cases cow <;>
            simp [cow_main, ext4_snapshot_test_cow_bitmap, hbr, hmap, hbm,
              hbu, hgb, hcp, h1, h2, h3, he, Nat.not_le.mp, Nat.lt_of_not_le,
              Nat.not_lt.mpr]

/-- Every successful (`ret = 0`) exit of the COW body passes through the
`cowed:` label and tags the buffer (no-failure setting). -/

lemma cow_main_buffer_no_fail (s : CowState) (h : Handle)
    (inode? : Option InodeRef) (block : Nat) (b : Buffer) (cow : Bool)
    (hbr : s.cowBitmapReadFails = false)
    (hmap : s.snapMapError = none)
    (hbm : b.mapped = true) (hbu : b.uptodate = true)
    (hgb : s.getblk = GetblkOutcome.allocated)
    (hcp : s.copyError = none) :
    (cow_main s h inode? block (some b) cow).ret = 0 →
    (cow_main s h inode? block (some b) cow).buffer =
      ext4_snapshot_mark_cowed h (some b) := by
  by_cases h1 : s.snapshotBlocks ≤ block <;>
    by_cases h2 : s.cowBitmap block = true <;>
      by_cases h3 : s.snapMapped block = true <;>
        by_cases he : ext4_snapshot_excluded inode? < 0 <;>
          cases cow <;>
            simp [cow_main, ext4_snapshot_test_cow_bitmap, hbr, hmap, hbm,
              hbu, hgb, hcp, h1, h2, h3, he]

/-- **C3.** Reentrance discipline of the COW engine: a hook invoked while
the handle is already marked `cowing` is a no-op returning 0; a non-COWing
access whose owner inode *is* the active snapshot is denied with `-EPERM`;
and both the COW and the move operation consist of `cow_begin` (which sets
the `cowing` flag), a body run entirely under that flag, and `cow_end`
(which clears it), so the flag is restored on every exit. -/

theorem C3_cowing_reentrance (s : CowState) (sm : MoveState) (h : Handle)
    (inode? : Option InodeRef) (block : Nat) (bh? : Option Buffer)
    (cow : Bool) (maxblocks : Nat) (mv : Bool) :
    (∀ act, s.activeSnapshotIno = some act → h.cowing = true →
      ext4_snapshot_test_and_cow s h inode? block bh? cow =
        ⟨0, h, bh?, false⟩) ∧
    (∀ act i, s.activeSnapshotIno = some act → h.cowing = false →
      inode? = some i → i.ino = act →
      (ext4_snapshot_test_and_cow s h inode? block bh? cow).ret = -EPERM) ∧
    ((ext4_snapshot_test_and_cow s h inode? block bh? cow).handle.cowing =
      h.cowing) ∧
    (∀ act, s.activeSnapshotIno = some act → h.cowing = false →
      inode?.any (fun i => i.ino == act) = false →
      ext4_snapshot_test_cowed h bh? = false →
      ext4_snapshot_test_and_cow s h inode? block bh? cow =
        cow_end (cow_main s { h with cowing := true } inode? block bh? cow) ∧
      ({ h with cowing := true } : Handle).cowing = true ∧
      (cow_end (cow_main s { h with cowing := true } inode? block bh?
        cow)).handle.cowing = false) ∧
    (∀ act, sm.activeSnapshotIno = some act → h.cowing = false →
      inode?.any (fun i => i.ino == act) = false →
      ext4_snapshot_test_and_move sm h inode? block maxblocks mv =
        some (move_end
          (move_main sm { h with cowing := true } inode? block maxblocks
            mv)) ∧
      (move_end (move_main sm { h with cowing := true } inode? block
        maxblocks mv)).handle.cowing = false) := by
  refine ⟨?_, ?_, ?_, ?_, ?_⟩
  · intro act ha hc
    simp only [ext4_snapshot_test_and_cow, ha, hc]
    simp
  · intro act i ha hc hi hia
    simp only [ext4_snapshot_test_and_cow, ha, hc, hi]
    simp [hia]
  · rcases ha : s.activeSnapshotIno with _ | act
    · simp [ext4_snapshot_test_and_cow, ha]
    · by_cases hc : h.cowing
      · simp [ext4_snapshot_test_and_cow, ha, hc]
      · have hcf : h.cowing = false := by
          revert hc
          cases h.cowing <;> simp
        simp only [ext4_snapshot_test_and_cow, ha, hcf, Bool.false_eq_true,
          if_false]
        split
        · simp [hcf]
        · split
          · simp [hcf]
          · simp [cow_end, hcf]
  · intro act ha hc hnot hcache
    exact ⟨test_and_cow_main s h inode? block bh? cow act ha hc hnot hcache,
      rfl, rfl⟩
  · intro act ha hc hnot
    constructor
    · simp only [ext4_snapshot_test_and_move, ha, hc, hnot]
      simp
    · rfl

/-- Witness for C3 at the concrete counterexample state. -/

theorem C3_cowing_reentrance_witness :
    ext4_snapshot_test_and_cow cowStateCex ⟨5, true⟩ (some ⟨2, true, false⟩)
        50 (some cowBufCex) true =
      ⟨0, ⟨5, true⟩, some cowBufCex, false⟩ ∧
    (ext4_snapshot_test_and_cow cowStateCex cowHandleCex
        (some ⟨1, true, false⟩) 50 (some cowBufCex) true).ret = -EPERM :=
  ⟨(C3_cowing_reentrance cowStateCex
      ⟨some 1, 100, fun _ => true, fun _ => false, false, none, 0, 0,
       fun _ => MoveChunk.fail (-28), 0⟩
      ⟨5, true⟩ (some ⟨2, true, false⟩) 50 (some cowBufCex) true 1
      true).1 1 rfl rfl,
   (C3_cowing_reentrance cowStateCex
      ⟨some 1, 100, fun _ => true, fun _ => false, false, none, 0, 0,
       fun _ => MoveChunk.fail (-28), 0⟩
      cowHandleCex (some ⟨1, true, false⟩) 50 (some cowBufCex) true 1
      true).2.1 1 ⟨1, true, false⟩ rfl rfl rfl rfl⟩

/-- **C2.** COW-once-per-transaction: a successful COW of buffer `b` under
handle `h` leaves `b`'s journal head tagged with `h`'s transaction id
(when `b` is attached to the journal); a second COW attempt on `b` under a
handle with that transaction id short-circuits through the COW cache,
returning 0 with no copy and no state change; and the cache is disabled
when the buffer is not attached to the journal. -/

theorem C2_cow_once_per_tx (s : CowState) (h h2 : Handle)
    (inode? : Option InodeRef) (block : Nat) (b : Buffer) (act : Nat)
    (hact : s.activeSnapshotIno = some act)
    (hbr : s.cowBitmapReadFails = false)
    (hmap : s.snapMapError = none)
    (hbm : b.mapped = true) (hbu : b.uptodate = true)
    (hgb : s.getblk = GetblkOutcome.allocated)
    (hcp : s.copyError = none) :
    (h.cowing = false →
      inode?.any (fun i => i.ino == act) = false →
      b.jbd = true →
      (ext4_snapshot_test_and_cow s h inode? block (some b) true).ret = 0 →
      (ext4_snapshot_test_and_cow s h inode? block (some b) true).buffer =
        some { b with cow_tid := h.tid }) ∧
    (h2.cowing = false →
      inode?.any (fun i => i.ino == act) = false →
      b.jbd = true → b.cow_tid = h2.tid →
      ext4_snapshot_test_and_cow s h2 inode? block (some b) true =
        ⟨0, h2, some b, false⟩) ∧
    (b.jbd = false → ext4_snapshot_test_cowed h (some b) = false) := by
  refine ⟨?_, ?_, ?_⟩
  · intro hc hnot hjbd hret
    by_cases hcache : ext4_snapshot_test_cowed h (some b) = true
    · have htid : b.cow_tid = h.tid := by
        simp only [ext4_snapshot_test_cowed, hjbd, Bool.true_and,
          beq_iff_eq] at hcache
        exact hcache
      simp only [ext4_snapshot_test_and_cow, hact, hc, hnot, hcache,
        if_true]
      cases b
      simp_all
    · rw [test_and_cow_main s h inode? block (some b) true act hact hc hnot
        (by simpa using hcache)] at hret ⊢
      rw [cow_end_ret] at hret
      rw [cow_end_buffer,
        cow_main_buffer_no_fail s { h with cowing := true } inode? block b
          true hbr hmap hbm hbu hgb hcp hret]
      simp [ext4_snapshot_mark_cowed, hjbd]
  · intro hc hnot hjbd htid
    have hcache : ext4_snapshot_test_cowed h2 (some b) = true := by
      simp [ext4_snapshot_test_cowed, hjbd, htid]
    simp only [ext4_snapshot_test_and_cow, hact, hc, hnot, hcache]
    simp
  · intro hjbd
    simp [ext4_snapshot_test_cowed, hjbd]

/-- Witness for C2: COW block 50 under tid 5 (tags the buffer), then the
second attempt under tid 5 is a cache hit: 0, no copy. -/

theorem C2_cow_once_per_tx_witness :
    (ext4_snapshot_test_and_cow cowStateCex cowHandleCex
        (some ⟨2, true, false⟩) 50 (some cowBufCex) true).buffer =
      some { cowBufCex with cow_tid := 5 } ∧
    ext4_snapshot_test_and_cow cowStateCex cowHandleCex
        (some ⟨2, true, false⟩) 50
        (some { cowBufCex with cow_tid := 5 }) true =
      ⟨0, cowHandleCex, some { cowBufCex with cow_tid := 5 }, false⟩ ∧
    ext4_snapshot_test_cowed cowHandleCex
        (some { cowBufCex with jbd := false }) = false :=
  ⟨(C2_cow_once_per_tx cowStateCex cowHandleCex cowHandleCex
      (some ⟨2, true, false⟩) 50 cowBufCex 1 rfl rfl rfl rfl rfl rfl
      rfl).1 rfl rfl rfl rfl,
   (C2_cow_once_per_tx cowStateCex cowHandleCex cowHandleCex
      (some ⟨2, true, false⟩) 50 { cowBufCex with cow_tid := 5 } 1 rfl rfl
      rfl rfl rfl rfl rfl).2.1 rfl rfl rfl rfl,
   (C2_cow_once_per_tx cowStateCex cowHandleCex cowHandleCex
      (some ⟨2, true, false⟩) 50 { cowBufCex with jbd := false } 1 rfl rfl
      rfl rfl rfl rfl rfl).2.2 rfl⟩

/-- The counterexample for C1: in *copy* mode (`cow = true`), on a block
in use by the snapshot and not yet mapped, with the owner inode a
(non-active) snapshot file — which `ext4_snapshot_excluded` classifies as
"ignored", forcing `cow = 0` — the engine still returns 1, although the
call was not test-only. -/

theorem C1_test_and_cow_counterexample :
    (ext4_snapshot_test_and_cow cowStateCex cowHandleCex
        (some ⟨2, true, true⟩) 50 (some cowBufCex) true).ret = 1 ∧
    cowStateCex.cowBitmap 50 = true ∧
    cowStateCex.snapMapped 50 = false ∧
    (50 : Nat) < cowStateCex.snapshotBlocks :=
  ⟨rfl, rfl, rfl, by norm_num [cowStateCex]⟩

/-- **C1 (amended).** For a COW hook invocation with an active snapshot
that passes the reentrance, permission and COW-cache guards and on which
no kernel service fails: the return value is 0 or 1, and it is 1 exactly
when the block is in use by the snapshot (bit set in the COW bitmap and
below the snapshot-take size), not yet mapped in the snapshot file, and
the call is effectively test-only — the test-only flag was passed, or the
owner inode is excluded/ignored (a snapshot file), which forces test-only
behaviour.  With no active snapshot every invocation returns 0, and
`get_create_access`, which calls `cow` in test-only mode on a newly
allocated metadata block, converts a "needs COW" result into `-EIO`. -/

theorem C1_cow_classification (s : CowState) (h : Handle)
    (inode? : Option InodeRef) (block : Nat) (b : Buffer) (cow : Bool)
    (act : Nat)
    (hact : s.activeSnapshotIno = some act)
    (hcow : h.cowing = false)
    (hnot : inode?.any (fun i => i.ino == act) = false)
    (hcache : ext4_snapshot_test_cowed h (some b) = false)
    (hbr : s.cowBitmapReadFails = false)
    (hmap : s.snapMapError = none)
    (hbm : b.mapped = true) (hbu : b.uptodate = true)
    (hgb : s.getblk = GetblkOutcome.allocated)
    (hcp : s.copyError = none) :
    ((ext4_snapshot_test_and_cow s h inode? block (some b) cow).ret = 1 ↔
      block < s.snapshotBlocks ∧ s.cowBitmap block = true ∧
        s.snapMapped block = false ∧
        (cow = false ∨ ext4_snapshot_excluded inode? < 0)) ∧
    ((ext4_snapshot_test_and_cow s h inode? block (some b) cow).ret = 0 ∨
      (ext4_snapshot_test_and_cow s h inode? block (some b) cow).ret = 1) ∧
    (∀ (s2 : CowState) h2 i2 blk2 bh2 c2, s2.activeSnapshotIno = none →
      (ext4_snapshot_test_and_cow s2 h2 i2 blk2 bh2 c2).ret = 0) ∧
    (∀ (s3 : CowState) h3 b3, s3.snapshotsEnabled = true →
      (ext4_snapshot_test_and_cow s3 h3 none b3.blocknr (some b3)
        false).ret = 1 →
      ext4_snapshot_get_create_access s3 h3 b3 = - EIO) := by
  have hmain := test_and_cow_main s h inode? block (some b) cow act hact
    hcow hnot hcache
  have hclass := cow_main_classify s { h with cowing := true } inode? block
    b cow hbr hmap hbm hbu hgb hcp
  refine ⟨?_, ?_, ?_, ?_⟩
  · rw [hmain, cow_end_ret, hclass]
    by_cases hP : block < s.snapshotBlocks ∧ s.cowBitmap block = true ∧
        s.snapMapped block = false ∧
        (cow = false ∨ ext4_snapshot_excluded inode? < 0)
    · rw [if_pos hP]
      exact ⟨fun _ => hP, fun _ => rfl⟩
    · rw [if_neg hP]
      exact ⟨fun hcon => absurd hcon (by norm_num),
        fun hp => absurd hp hP⟩
  · rw [hmain, cow_end_ret, hclass]
    split
    · exact Or.inr rfl
    · exact Or.inl rfl
  · intro s2 h2 i2 blk2 bh2 c2 hnone
    simp [ext4_snapshot_test_and_cow, hnone]
  · intro s3 h3 b3 hen hret
    rw [ext4_snapshot_get_create_access, if_neg (by simp [hen]), hret]
    norm_num

/-- Witness for C1 (amended): at the concrete state, test-only on block 50
returns 1; copy mode on block 50 returns 0; `get_create_access` on block
50 fails with `-EIO`. -/

theorem C1_cow_classification_witness :
    (ext4_snapshot_test_and_cow cowStateCex cowHandleCex
        (some ⟨2, true, false⟩) 50 (some cowBufCex) false).ret = 1 ∧
    (ext4_snapshot_test_and_cow cowStateCex cowHandleCex
        (some ⟨2, true, false⟩) 50 (some cowBufCex) true).ret = 0 ∧
    ext4_snapshot_get_create_access cowStateCex cowHandleCex cowBufCex =
      - EIO :=
  ⟨((C1_cow_classification cowStateCex cowHandleCex (some ⟨2, true, false⟩)
      50 cowBufCex false 1 rfl rfl rfl rfl rfl rfl rfl rfl rfl rfl).1).mpr
      ⟨by norm_num [cowStateCex], rfl, rfl, Or.inl rfl⟩,
   by
    rcases (C1_cow_classification cowStateCex cowHandleCex
      (some ⟨2, true, false⟩) 50 cowBufCex true 1 rfl rfl rfl rfl rfl rfl
      rfl rfl rfl rfl).2.1 with h0 | h1
    · exact h0
    · exact absurd ((C1_cow_classification cowStateCex cowHandleCex
        (some ⟨2, true, false⟩) 50 cowBufCex true 1 rfl rfl rfl rfl rfl rfl
        rfl rfl rfl rfl).1.mp h1)
        (by
          intro hcon
          rcases hcon.2.2.2 with hx | hx
          · exact absurd hx (by norm_num)
          · norm_num [ext4_snapshot_excluded] at hx),
   (C1_cow_classification cowStateCex cowHandleCex (some ⟨2, true, false⟩)
      50 cowBufCex false 1 rfl rfl rfl rfl rfl rfl rfl rfl rfl rfl).2.2.2
      cowStateCex cowHandleCex cowBufCex rfl
      (((C1_cow_classification cowStateCex cowHandleCex none 50 cowBufCex
        false 1 rfl rfl rfl rfl rfl rfl rfl rfl rfl rfl).1).mpr
        ⟨by norm_num [cowStateCex], rfl, rfl, Or.inl rfl⟩)⟩

/-! ## Quota accounting of the move engine (C4) -/

lemma map_blocks_move_frame (s : MoveState) (blk count : Nat) :
    (ext4_snapshot_map_blocks_move s blk count).2.ownerQuota =
      s.ownerQuota ∧
    (ext4_snapshot_map_blocks_move s blk count).2.schedule = s.schedule ∧
    s.snapQuota ≤ (ext4_snapshot_map_blocks_move s blk count).2.snapQuota := by
  refine ⟨?_, ?_, ?_⟩ <;>
    rcases hs : s.schedule s.callIdx with c | n <;>
      simp only [ext4_snapshot_map_blocks_move, hs] <;>
        first
          | rfl
          | omega
          | (split <;> first | rfl | (dsimp only; omega))

lemma map_blocks_move_pos (s : MoveState) (blk count : Nat)
    (hsched : ∀ c, s.schedule s.callIdx = MoveChunk.fail c → c < 0) :
    0 < (ext4_snapshot_map_blocks_move s blk count).1 →
    (ext4_snapshot_map_blocks_move s blk count).2.snapQuota =
      s.snapQuota + (ext4_snapshot_map_blocks_move s blk count).1 ∧
    (ext4_snapshot_map_blocks_move s blk count).1.toNat ≤ count := by
  intro hpos
  rcases hs : s.schedule s.callIdx with c | n
  · have := hsched c hs
    simp only [ext4_snapshot_map_blocks_move, hs] at hpos
    omega
  · simp only [ext4_snapshot_map_blocks_move, hs] at hpos ⊢
    by_cases hm : min n count = 0
    · rw [if_pos hm] at hpos
      norm_num at hpos
    · rw [if_neg hm] at hpos ⊢
      exact ⟨rfl, by omega⟩

/-- Invariant of the move loop: the owner quota and the schedule are never
touched, the snapshot quota only grows; on normal completion the return
value equals the number of moved blocks and the snapshot quota grew by
exactly the blocks moved in this loop; on a `goto out` exit the return
value is ≤ 0. -/

lemma moveLoop_invariant :
    ∀ (fuel : Nat) (s : MoveState) (blk count moved : Nat),
    (∀ c i, s.schedule i = MoveChunk.fail c → c < 0) →
    ((moveLoop s blk count moved fuel).2.1.ownerQuota = s.ownerQuota ∧
     (moveLoop s blk count moved fuel).2.1.schedule = s.schedule ∧
     s.snapQuota ≤ (moveLoop s blk count moved fuel).2.1.snapQuota) ∧
    ((moveLoop s blk count moved fuel).2.2.2 = true →
      (moveLoop s blk count moved fuel).1 =
        ((moveLoop s blk count moved fuel).2.2.1 : Int) ∧
      moved ≤ (moveLoop s blk count moved fuel).2.2.1 ∧
      (moveLoop s blk count moved fuel).2.1.snapQuota =
        s.snapQuota +
          (((moveLoop s blk count moved fuel).2.2.1 : Int) - (moved : Int))) ∧
    ((moveLoop s blk count moved fuel).2.2.2 = false →
      (moveLoop s blk count moved fuel).1 ≤ 0) := by
  intro fuel
  induction fuel with
  | zero =>
    intro s blk count moved hsched
    refine ⟨⟨rfl, rfl, le_refl _⟩, ?_, ?_⟩
    · intro _
      refine ⟨rfl, le_refl _, ?_⟩
      show s.snapQuota = s.snapQuota + ((moved : Int) - (moved : Int))
      omega
    · intro hfalse
      exact absurd hfalse (by simp [moveLoop])
  | succ n ih =>
    intro s blk count moved hsched
    by_cases hc0 : count = 0
    · subst hc0
      rw [moveLoop, if_pos rfl]
      refine ⟨⟨rfl, rfl, le_refl _⟩, ?_, ?_⟩
      · intro _
        refine ⟨rfl, le_refl _, ?_⟩
        show s.snapQuota = s.snapQuota + ((moved : Int) - (moved : Int))
        omega
      · intro hfalse
        exact absurd hfalse (by simp)
    · rw [moveLoop, if_neg hc0]
      by_cases hle : (ext4_snapshot_map_blocks_move s blk count).1 ≤ 0
      · rw [if_pos hle]
        obtain ⟨ho, hs, hq⟩ := map_blocks_move_frame s blk count
        refine ⟨⟨ho, hs, hq⟩, ?_, fun _ => hle⟩
        intro hfalse
        exact absurd hfalse (by simp)
      · rw [if_neg hle]
        have hpos : 0 < (ext4_snapshot_map_blocks_move s blk count).1 := by
          omega
        obtain ⟨ho, hs, _⟩ := map_blocks_move_frame s blk count
        obtain ⟨hq, _⟩ := map_blocks_move_pos s blk count
          (fun c hc => hsched c s.callIdx hc) hpos
        have hsched' : ∀ c i,
            (ext4_snapshot_map_blocks_move s blk count).2.schedule i =
              MoveChunk.fail c → c < 0 := by
          intro c i hc
          rw [hs] at hc
          exact hsched c i hc
        obtain ⟨⟨iho, ihs, ihq⟩, ihsucc, ihfail⟩ :=
          ih (ext4_snapshot_map_blocks_move s blk count).2
            (blk + (ext4_snapshot_map_blocks_move s blk count).1.toNat)
            (count - (ext4_snapshot_map_blocks_move s blk count).1.toNat)
            (moved + (ext4_snapshot_map_blocks_move s blk count).1.toNat)
            hsched'
        refine ⟨⟨by rw [iho, ho], by rw [ihs, hs], by omega⟩, ?_, ihfail⟩
        intro hdone
        obtain ⟨e1, e2, e3⟩ := ihsucc hdone
        refine ⟨e1, by omega, ?_⟩
        rw [e3, hq]
        omega

/-- First-call failure: the loop exits immediately with the error and an
otherwise untouched state. -/

lemma moveLoop_first_fail (s : MoveState) (blk count moved fuel : Nat)
    (c : Int) (hc0 : count ≠ 0)
    (hs : s.schedule s.callIdx = MoveChunk.fail c) (hneg : c < 0) :
    moveLoop s blk count moved (fuel + 1) =
      (c, { s with callIdx := s.callIdx + 1 }, count, false) := by
  simp only [moveLoop, if_neg hc0, ext4_snapshot_map_blocks_move, hs]
  rw [if_pos (by omega)]

/-- The counterexample for C4: moving 2 blocks fails after 1 block was
moved; the call reports failure (`-ENOSPC`), yet the snapshot quota was
charged one block and the owner was not refunded — for this failed move
the two quotas are *not* both unchanged. -/

theorem C4_move_quota_counterexample :
    (ext4_snapshot_test_and_move moveStateCex moveHandleCex
        (some ⟨2, true, false⟩) 50 2 true).map
      (fun r => (r.ret, r.state.ownerQuota, r.state.snapQuota)) =
      some (-28, 10, 0 + 1) := rfl

/-- **C4 (amended).** For a move of data blocks to the active snapshot
under an owner inode: if the call succeeds having moved `n` blocks
(`ret = n > 0`), the owner quota decreases by `n` and the snapshot quota
increases by `n`; if it fails, the owner quota is unchanged (never
refunded) and the snapshot quota retains the charge for any blocks moved
before the failure (it can only have grown); in particular a move that
fails before any block was moved — e.g. the first allocator call fails —
leaves both quotas unchanged. -/

theorem C4_move_quota (s : MoveState) (h : Handle) (i : InodeRef)
    (block maxblocks : Nat) (act : Nat)
    (hact : s.activeSnapshotIno = some act)
    (hcow : h.cowing = false)
    (hnoti : (i.ino == act) = false)
    (hexcl : ext4_snapshot_excluded (some i) = 0)
    (hsched : ∀ c idx, s.schedule idx = MoveChunk.fail c → c < 0)
    (himap : ∀ c, s.snapMapError = some c → c < 0) :
    ∀ res, ext4_snapshot_test_and_move s h (some i) block maxblocks true =
        some res →
      (0 < res.ret →
        res.state.ownerQuota = s.ownerQuota - res.ret ∧
        res.state.snapQuota = s.snapQuota + res.ret) ∧
      (res.ret ≤ 0 →
        res.state.ownerQuota = s.ownerQuota ∧
        s.snapQuota ≤ res.state.snapQuota) ∧
      (∀ c, s.schedule s.callIdx = MoveChunk.fail c →
        res.state.ownerQuota = s.ownerQuota ∧
        res.state.snapQuota = s.snapQuota) := by
  intro res hres
  rw [ext4_snapshot_test_and_move] at hres
  simp only [hact, hcow, hnoti, Option.any_some, Bool.false_or,
    Bool.false_eq_true, if_false, Option.some_inj] at hres
  rw [move_main] at hres
  simp only [hexcl, ne_eq, not_true_eq_false, if_false, Bool.not_true,
    Bool.false_eq_true] at hres
  by_cases hb1 : (move_test_cow_bitmap s block maxblocks).1 < 0
  · rw [if_pos hb1] at hres
    subst hres
    exact ⟨fun hpos => absurd hpos (by dsimp only [move_end]; omega),
      fun _ => ⟨rfl, le_refl _⟩, fun c hc => ⟨rfl, rfl⟩⟩
  · rw [if_neg hb1] at hres
    by_cases hb0 : (move_test_cow_bitmap s block maxblocks).1 = 0
    · rw [if_pos hb0] at hres
      subst hres
      exact ⟨fun hpos => absurd hpos (by dsimp only [move_end]; omega),
        fun _ => ⟨rfl, le_refl _⟩, fun c hc => ⟨rfl, rfl⟩⟩
    · rw [if_neg hb0] at hres
      rcases hsm : s.snapMapError with _ | c0
      · rw [hsm] at hres
        by_cases hmp : s.snapMapped block = true
        · rw [if_pos hmp] at hres
          subst hres
          exact ⟨fun hpos => absurd hpos (by dsimp only [move_end]; omega),
            fun _ => ⟨rfl, le_refl _⟩, fun c hc => ⟨rfl, rfl⟩⟩
        · rw [if_neg hmp] at hres
          generalize hcnt0 : (move_test_cow_bitmap s block maxblocks).2 = cnt
            at hres
          obtain ⟨⟨lo, ls, lq⟩, lsucc, lfail⟩ :=
            moveLoop_invariant cnt s block cnt 0 hsched
          by_cases hdone : (moveLoop s block cnt 0 cnt).2.2.2 = true
          · rw [if_pos hdone] at hres
            obtain ⟨e1, _, e3⟩ := lsucc hdone
            subst hres
            refine ⟨?_, ?_, ?_⟩
            · intro hpos
              dsimp only [move_end] at hpos ⊢
              constructor
              · rw [lo, e1]
              · rw [e3, e1]
                omega
            · intro hle
              dsimp only [move_end] at hle ⊢
              rw [e1] at hle
              constructor
              · rw [lo]
                omega
              · omega
            · intro c hc
              by_cases hz : cnt = 0
              · subst hz
                dsimp only [move_end]
                simp only [moveLoop]
                constructor
                · norm_num
                · norm_num
              · obtain ⟨m, rfl⟩ : ∃ m, cnt = m + 1 := ⟨cnt - 1, by omega⟩
                rw [moveLoop_first_fail s block (m + 1) 0 m c (by omega) hc
                  (hsched c s.callIdx hc)] at hdone
                exact absurd hdone (by simp)
          · rw [if_neg hdone] at hres
            have hfail := lfail (by
              revert hdone
              cases (moveLoop s block cnt 0 cnt).2.2.2 <;> simp)
            subst hres
            refine ⟨?_, ?_, ?_⟩
            · intro hpos
              dsimp only [move_end] at hpos
              omega
            · intro _
              exact ⟨lo, lq⟩
            · intro c hc
              by_cases hz : cnt = 0
              · subst hz
                exact absurd (by simp [moveLoop]) hdone
              · obtain ⟨m, rfl⟩ : ∃ m, cnt = m + 1 := ⟨cnt - 1, by omega⟩
                dsimp only [move_end]
                rw [moveLoop_first_fail s block (m + 1) 0 m c (by omega) hc
                  (hsched c s.callIdx hc)]
                exact ⟨rfl, rfl⟩
      · rw [hsm] at hres
        subst hres
        refine ⟨?_, fun _ => ⟨rfl, le_refl _⟩, fun c hc => ⟨rfl, rfl⟩⟩
        intro hpos
        dsimp only [move_end] at hpos
        exact absurd hpos (by have := himap c0 hsm; omega)

/-- Witness for C4 (amended): a full success moving 2 blocks decreases the
owner quota by 2 and increases the snapshot quota by 2. -/

theorem C4_move_quota_witness :
    (move_end (move_main moveStateWit { moveHandleCex with cowing := true }
        (some ⟨2, true, false⟩) 50 2 true)).state.ownerQuota =
      moveStateWit.ownerQuota -
        (move_end (move_main moveStateWit
          { moveHandleCex with cowing := true } (some ⟨2, true, false⟩) 50 2
          true)).ret ∧
    (move_end (move_main moveStateWit { moveHandleCex with cowing := true }
        (some ⟨2, true, false⟩) 50 2 true)).state.snapQuota =
      moveStateWit.snapQuota +
        (move_end (move_main moveStateWit
          { moveHandleCex with cowing := true } (some ⟨2, true, false⟩) 50 2
          true)).ret :=
  (C4_move_quota moveStateWit moveHandleCex ⟨2, true, false⟩ 50 2 1 rfl rfl
    rfl rfl
    (fun c idx hc => by simp [moveStateWit] at hc)
    (fun c hc => by simp [moveStateWit] at hc)
    (move_end (move_main moveStateWit { moveHandleCex with cowing := true }
      (some ⟨2, true, false⟩) 50 2 true)) rfl).1 (by decide)

end Ext4

namespace Next3

lemma failed_effects_forget (cmd : SnapCmd) (newBlocks : List Nat)
    (indirect_blks n num : Nat) (hsync : cmd.sync = false) :
    ∀ j, j < n → AllocEffect.journalForget (newBlocks.getD j 0) ∈
      alloc_branch_failed_effects cmd newBlocks indirect_blks n num := by
  intro j hj
  simp only [alloc_branch_failed_effects, hsync, Bool.false_eq_true,
    if_false, List.mem_append, List.mem_map, List.mem_range]
  exact Or.inl (Or.inl ⟨j, hj, rfl⟩)

lemma failed_effects_free (cmd : SnapCmd) (newBlocks : List Nat)
    (indirect_blks n num : Nat) :
    ∀ j, j < indirect_blks →
      AllocEffect.freeBlocks (newBlocks.getD j 0) 1 ∈
        alloc_branch_failed_effects cmd newBlocks indirect_blks n num := by
  intro j hj
  simp only [alloc_branch_failed_effects, List.mem_append, List.mem_map,
    List.mem_range]
  exact Or.inl (Or.inr ⟨j, hj, rfl⟩)

lemma failed_effects_refund (cmd : SnapCmd) (newBlocks : List Nat)
    (indirect_blks n num : Nat) (hmove : cmd.move = true) (hnum : 0 < num) :
    AllocEffect.refundSnapQuota num ∈
      alloc_branch_failed_effects cmd newBlocks indirect_blks n num := by
  simp only [alloc_branch_failed_effects, List.mem_append]
  right
  simp [hmove, hnum]

lemma failed_effects_free_data (cmd : SnapCmd) (newBlocks : List Nat)
    (indirect_blks n num : Nat) (hmove : cmd.move = false) (hnum : 0 < num) :
    AllocEffect.freeBlocks (newBlocks.getD indirect_blks 0) num ∈
      alloc_branch_failed_effects cmd newBlocks indirect_blks n num := by
  simp only [alloc_branch_failed_effects, List.mem_append]
  right
  simp [hmove, hnum]

lemma failed_effects_free_count (cmd : SnapCmd) (newBlocks : List Nat)
    (indirect_blks n num : Nat) (hmove : cmd.move = true) :
    ∀ first cnt, AllocEffect.freeBlocks first cnt ∈
        alloc_branch_failed_effects cmd newBlocks indirect_blks n num →
      cnt = 1 := by
  intro first cnt hmem
  rcases cmd with ⟨mv, sc⟩
  simp only [SnapCmd.move] at hmove
  subst hmove
  cases sc <;> by_cases h0 : 0 < num <;>
    simp [alloc_branch_failed_effects, h0] at hmem <;>
      tauto

lemma failed_effects_no_create (cmd : SnapCmd) (newBlocks : List Nat)
    (indirect_blks n num : Nat) :
    ∀ b, AllocEffect.createAccess b ∉
      alloc_branch_failed_effects cmd newBlocks indirect_blks n num := by
  intro b hmem
  rcases cmd with ⟨mv, sc⟩
  cases sc <;> cases mv <;> by_cases h0 : 0 < num <;>
    simp [alloc_branch_failed_effects, h0] at hmem

lemma failed_effects_no_write (cmd : SnapCmd) (newBlocks : List Nat)
    (indirect_blks n num : Nat) :
    ∀ b, AllocEffect.writeBuffer b ∉
      alloc_branch_failed_effects cmd newBlocks indirect_blks n num := by
  intro b hmem
  rcases cmd with ⟨mv, sc⟩
  cases sc <;> cases mv <;> by_cases h0 : 0 < num <;>
    simp [alloc_branch_failed_effects, h0] at hmem

lemma failed_effects_no_parent (cmd : SnapCmd) (newBlocks : List Nat)
    (indirect_blks n num : Nat) :
    ∀ v, AllocEffect.writeParentSlot v ∉
      alloc_branch_failed_effects cmd newBlocks indirect_blks n num := by
  intro v hmem
  rcases cmd with ⟨mv, sc⟩
  cases sc <;> cases mv <;> by_cases h0 : 0 < num <;>
    simp [alloc_branch_failed_effects, h0] at hmem

/-- Unfolding: the loop step where journal create access fails. -/

lemma loop_succ_ca (env : AllocEnv) (cmd : SnapCmd) (nb : List Nat)
    (n f : Nat) (h : ¬ cmd.sync ∧ env.createAccessFails n = true) :
    alloc_branch_loop env cmd nb n (f + 1) =
      (-5, n, if cmd.sync then ([] : List AllocEffect)
              else [AllocEffect.createAccess (nb.getD (n - 1) 0)]) := by
  rw [alloc_branch_loop, if_pos h]

lemma loop_succ_ab (env : AllocEnv) (cmd : SnapCmd) (nb : List Nat)
    (n f : Nat) (h1 : ¬ (¬ cmd.sync ∧ env.createAccessFails n = true))
    (h2 : ¬ cmd.sync ∧ env.aborted = true) :
    alloc_branch_loop env cmd nb n (f + 1) =
      (-30, n,
       (if cmd.sync then ([] : List AllocEffect)
        else [AllocEffect.createAccess (nb.getD (n - 1) 0)]) ++
       [AllocEffect.writeBuffer (nb.getD (n - 1) 0)] ++
       (if cmd.sync then [AllocEffect.syncDirty (nb.getD (n - 1) 0)]
        else [AllocEffect.journalDirty (nb.getD (n - 1) 0)])) := by
  rw [alloc_branch_loop, if_neg h1, if_pos h2]

lemma loop_succ_step (env : AllocEnv) (cmd : SnapCmd) (nb : List Nat)
    (n f : Nat) (h1 : ¬ (¬ cmd.sync ∧ env.createAccessFails n = true))
    (h2 : ¬ (¬ cmd.sync ∧ env.aborted = true)) :
    alloc_branch_loop env cmd nb n (f + 1) =
      ((alloc_branch_loop env cmd nb (n + 1) f).1,
       (alloc_branch_loop env cmd nb (n + 1) f).2.1,
       ((if cmd.sync then ([] : List AllocEffect)
         else [AllocEffect.createAccess (nb.getD (n - 1) 0)]) ++
        [AllocEffect.writeBuffer (nb.getD (n - 1) 0)] ++
        (if cmd.sync then [AllocEffect.syncDirty (nb.getD (n - 1) 0)]
         else [AllocEffect.journalDirty (nb.getD (n - 1) 0)])) ++
       (alloc_branch_loop env cmd nb (n + 1) f).2.2) := by
  rw [alloc_branch_loop]
  rw [if_neg h1, if_neg h2]

lemma alloc_branch_step_mem (cmd : SnapCmd) (b0 : Nat) (c : AllocEffect) :
    c ∈ ((if cmd.sync then ([] : List AllocEffect)
          else [AllocEffect.createAccess b0]) ++
         [AllocEffect.writeBuffer b0] ++
         (if cmd.sync then [AllocEffect.syncDirty b0]
          else [AllocEffect.journalDirty b0])) →
    c = AllocEffect.createAccess b0 ∨ c = AllocEffect.writeBuffer b0 ∨
      c = AllocEffect.syncDirty b0 ∨ c = AllocEffect.journalDirty b0 := by
  intro hc
  rcases hs : cmd.sync <;> simp [hs] at hc <;> tauto

lemma alloc_branch_loop_fail (env : AllocEnv) (cmd : SnapCmd)
    (newBlocks : List Nat) :
    ∀ fuel n,
      (alloc_branch_loop env cmd newBlocks n fuel).1 < 0 →
      n ≤ (alloc_branch_loop env cmd newBlocks n fuel).2.1 ∧
      (alloc_branch_loop env cmd newBlocks n fuel).2.1 < n + fuel ∧
      ∀ b,
        (AllocEffect.createAccess b ∈
            (alloc_branch_loop env cmd newBlocks n fuel).2.2 ∨
          AllocEffect.writeBuffer b ∈
            (alloc_branch_loop env cmd newBlocks n fuel).2.2) →
        ∃ j, n ≤ j ∧ j ≤ (alloc_branch_loop env cmd newBlocks n fuel).2.1 ∧
          b = newBlocks.getD (j - 1) 0 := by
  intro fuel
  induction fuel with
  | zero =>
    intro n herr
    simp [alloc_branch_loop] at herr
  | succ f ih =>
    intro n herr
    by_cases hca : ¬ cmd.sync ∧ env.createAccessFails n = true
    · rw [loop_succ_ca env cmd newBlocks n f hca] at herr ⊢
      dsimp only at herr ⊢
      have hs : cmd.sync = false := by
        rcases hq : cmd.sync
        · rfl
        · exact absurd hq (by simpa using hca.1)
      refine ⟨le_refl n, by omega, ?_⟩
      intro b hb
      rw [hs] at hb
      rcases hb with hb | hb
      · simp only [Bool.false_eq_true, if_false, List.mem_singleton] at hb
        exact ⟨n, le_refl n, le_refl n, AllocEffect.createAccess.inj hb⟩
      · simp only [Bool.false_eq_true, if_false, List.mem_singleton] at hb
        cases hb
    · by_cases hab : ¬ cmd.sync ∧ env.aborted = true
      · rw [loop_succ_ab env cmd newBlocks n f hca hab] at herr ⊢
        dsimp only at herr ⊢
        refine ⟨le_refl n, by omega, ?_⟩
        intro b hb
        rcases hb with hb | hb <;>
          rcases alloc_branch_step_mem cmd (newBlocks.getD (n - 1) 0) _ hb
            with he | he | he | he <;>
          first
            | exact ⟨n, le_refl n, le_refl n,
                AllocEffect.createAccess.inj he⟩
            | exact ⟨n, le_refl n, le_refl n,
                AllocEffect.writeBuffer.inj he⟩
            | exact absurd he (by simp)
      · rw [loop_succ_step env cmd newBlocks n f hca hab] at herr ⊢
        dsimp only at herr ⊢
        obtain ⟨ihle, ihlt, iheff⟩ := ih (n + 1) herr
        refine ⟨by omega, by omega, ?_⟩
        intro b hb
        rcases hb with hb | hb
        · rw [List.mem_append] at hb
          rcases hb with hb | hb
          · rcases alloc_branch_step_mem cmd (newBlocks.getD (n - 1) 0) _ hb
              with he | he | he | he
            · exact ⟨n, le_refl n, by omega, AllocEffect.createAccess.inj he⟩
            · exact absurd he (by simp)
            · exact absurd he (by simp)
            · exact absurd he (by simp)
          · obtain ⟨j, hj1, hj2, hj3⟩ := iheff b (Or.inl hb)
            exact ⟨j, by omega, hj2, hj3⟩
        · rw [List.mem_append] at hb
          rcases hb with hb | hb
          · rcases alloc_branch_step_mem cmd (newBlocks.getD (n - 1) 0) _ hb
              with he | he | he | he
            · exact absurd he (by simp)
            · exact ⟨n, le_refl n, by omega, AllocEffect.writeBuffer.inj he⟩
            · exact absurd he (by simp)
            · exact absurd he (by simp)
          · obtain ⟨j, hj1, hj2, hj3⟩ := iheff b (Or.inr hb)
            exact ⟨j, by omega, hj2, hj3⟩

lemma alloc_branch_loop_no_parent (env : AllocEnv) (cmd : SnapCmd)
    (newBlocks : List Nat) :
    ∀ fuel n v, AllocEffect.writeParentSlot v ∉
      (alloc_branch_loop env cmd newBlocks n fuel).2.2 := by
  intro fuel
  induction fuel with
  | zero =>
    intro n v hmem
    simp [alloc_branch_loop] at hmem
  | succ f ih =>
    intro n v hmem
    by_cases hca : ¬ cmd.sync ∧ env.createAccessFails n = true
    · rw [loop_succ_ca env cmd newBlocks n f hca] at hmem
      rcases hs : cmd.sync <;> simp [hs] at hmem
    · by_cases hab : ¬ cmd.sync ∧ env.aborted = true
      · rw [loop_succ_ab env cmd newBlocks n f hca hab] at hmem
        rcases hs : cmd.sync <;> simp [hs] at hmem
      · rw [loop_succ_step env cmd newBlocks n f hca hab] at hmem
        dsimp only at hmem
        rw [List.mem_append, List.mem_append] at hmem
        rcases hmem with (hmem | hmem) | hmem
        · rcases hs : cmd.sync <;> simp [hs] at hmem
        · rcases hs : cmd.sync <;> simp [hs] at hmem
        · exact ih (n + 1) v hmem

/-- The loop never frees blocks. -/

lemma alloc_branch_loop_no_free (env : AllocEnv) (cmd : SnapCmd)
    (newBlocks : List Nat) :
    ∀ fuel n first cnt, AllocEffect.freeBlocks first cnt ∉
      (alloc_branch_loop env cmd newBlocks n fuel).2.2 := by
  intro fuel
  induction fuel with
  | zero =>
    intro n first cnt hmem
    simp [alloc_branch_loop] at hmem
  | succ f ih =>
    intro n first cnt hmem
    by_cases hca : ¬ cmd.sync ∧ env.createAccessFails n = true
    · rw [loop_succ_ca env cmd newBlocks n f hca] at hmem
      rcases hs : cmd.sync <;> simp [hs] at hmem
    · by_cases hab : ¬ cmd.sync ∧ env.aborted = true
      · rw [loop_succ_ab env cmd newBlocks n f hca hab] at hmem
        rcases hs : cmd.sync <;> simp [hs] at hmem
      · rw [loop_succ_step env cmd newBlocks n f hca hab] at hmem
        dsimp only at hmem
        rw [List.mem_append, List.mem_append] at hmem
        rcases hmem with (hmem | hmem) | hmem
        · rcases hs : cmd.sync <;> simp [hs] at hmem
        · rcases hs : cmd.sync <;> simp [hs] at hmem
        · exact ih (n + 1) first cnt hmem

/-- A create-access effect can only come from journalled (non-sync) mode. -/

lemma alloc_branch_loop_create_sync (env : AllocEnv) (cmd : SnapCmd)
    (newBlocks : List Nat) :
    ∀ fuel n b, AllocEffect.createAccess b ∈
        (alloc_branch_loop env cmd newBlocks n fuel).2.2 →
      cmd.sync = false := by
  intro fuel
  induction fuel with
  | zero =>
    intro n b hmem
    simp [alloc_branch_loop] at hmem
  | succ f ih =>
    intro n b hmem
    rcases hs : cmd.sync
    · rfl
    · exfalso
      by_cases hca : ¬ cmd.sync ∧ env.createAccessFails n = true
      · rw [loop_succ_ca env cmd newBlocks n f hca] at hmem
        simp [hs] at hmem
      · by_cases hab : ¬ cmd.sync ∧ env.aborted = true
        · rw [loop_succ_ab env cmd newBlocks n f hca hab] at hmem
          simp [hs] at hmem
        · rw [loop_succ_step env cmd newBlocks n f hca hab] at hmem
          dsimp only at hmem
          rw [List.mem_append, List.mem_append] at hmem
          rcases hmem with (hmem | hmem) | hmem
          · simp [hs] at hmem
          · simp [hs] at hmem
          · exact absurd (ih (n + 1) b hmem) (by simp [hs])

/-- Shape of a plain (non-move) `next3_alloc_branch_cow` run once the block
allocator succeeded. -/

lemma alloc_branch_cow_plain_eq (env : AllocEnv) (cmd : SnapCmd)
    (iblock indirect_blks blksReq : Nat) (bl : List Nat) (num : Nat)
    (hmove : cmd.move = false)
    (halloc : env.allocOutcome = Except.ok (bl, num)) :
    next3_alloc_branch_cow env cmd iblock indirect_blks blksReq =
      (if (alloc_branch_loop env cmd bl 1 indirect_blks).1 < 0 then
        ⟨(alloc_branch_loop env cmd bl 1 indirect_blks).1, num, bl,
         (alloc_branch_loop env cmd bl 1 indirect_blks).2.2 ++
           alloc_branch_failed_effects cmd bl indirect_blks
             (alloc_branch_loop env cmd bl 1 indirect_blks).2.1 num⟩
       else ⟨0, num, bl,
         (alloc_branch_loop env cmd bl 1 indirect_blks).2.2⟩) := by
  simp only [next3_alloc_branch_cow, hmove, Bool.false_eq_true, if_false,
    halloc]

/-- Shape of a move-mode `next3_alloc_branch_cow` run once the indirect
blocks were allocated. -/

lemma alloc_branch_cow_move_eq (env : AllocEnv) (cmd : SnapCmd)
    (iblock indirect_blks blksReq : Nat) (inds : List Nat)
    (hmove : cmd.move = true)
    (hind : (if 0 < indirect_blks then env.allocIndirectOutcome
             else Except.ok []) = Except.ok inds) :
    next3_alloc_branch_cow env cmd iblock indirect_blks blksReq =
      (if (alloc_branch_loop env cmd (inds ++ [iblock]) 1 indirect_blks).1
          < 0 then
        ⟨(alloc_branch_loop env cmd (inds ++ [iblock]) 1 indirect_blks).1,
         blksReq, inds ++ [iblock],
         [AllocEffect.chargeSnapQuota blksReq] ++
           (alloc_branch_loop env cmd (inds ++ [iblock])
             1 indirect_blks).2.2 ++
           alloc_branch_failed_effects cmd (inds ++ [iblock]) indirect_blks
             (alloc_branch_loop env cmd (inds ++ [iblock])
               1 indirect_blks).2.1 blksReq⟩
       else ⟨0, blksReq, inds ++ [iblock],
         [AllocEffect.chargeSnapQuota blksReq] ++
           (alloc_branch_loop env cmd (inds ++ [iblock])
             1 indirect_blks).2.2⟩) := by
  simp only [next3_alloc_branch_cow, hmove, eq_self_iff_true, if_true, hind]

lemma splice_err_forget (cmd : SnapCmd) (whereKeys : List Nat)
    (num blks : Nat) (hsync : cmd.sync = false) :
    ∀ j, j < num → AllocEffect.journalForget (whereKeys.getD j 0) ∈
      splice_err_effects cmd whereKeys num blks := by
  intro j hj
  simp only [splice_err_effects, hsync, Bool.false_eq_true, if_false,
    List.mem_append, List.mem_map, List.mem_range]
  exact Or.inl (Or.inl ⟨j, hj, rfl⟩)

lemma splice_err_free (cmd : SnapCmd) (whereKeys : List Nat)
    (num blks : Nat) :
    ∀ j, j < num → AllocEffect.freeBlocks (whereKeys.getD j 0) 1 ∈
      splice_err_effects cmd whereKeys num blks := by
  intro j hj
  simp only [splice_err_effects, List.mem_append, List.mem_map,
    List.mem_range]
  exact Or.inl (Or.inr ⟨j, hj, rfl⟩)

lemma splice_err_refund (cmd : SnapCmd) (whereKeys : List Nat)
    (num blks : Nat) (hmove : cmd.move = true) :
    AllocEffect.refundSnapQuota blks ∈
      splice_err_effects cmd whereKeys num blks := by
  simp only [splice_err_effects, List.mem_append]
  right
  simp [hmove]

lemma splice_err_free_data (cmd : SnapCmd) (whereKeys : List Nat)
    (num blks : Nat) (hmove : cmd.move = false) :
    AllocEffect.freeBlocks (whereKeys.getD num 0) blks ∈
      splice_err_effects cmd whereKeys num blks := by
  simp only [splice_err_effects, List.mem_append]
  right
  simp [hmove]

/-- C6: when branch allocation fails after partial allocation, every chain
buffer that got a journal reservation (create access) is forgotten, every
allocated indirect block is freed (count 1), the data blocks are freed —
except in move mode, where the snapshot quota charge is refunded and no
multi-block free happens — and no slot reachable from the inode is written.
When splicing fails at the parent write access, nothing was written and the
same rollback runs.  The only failure that leaves the parent slot written
is the final dirty-metadata failure, which occurs only on an aborted
journal handle (whose transaction never commits). -/

theorem C6_branch_failure_rollback :
    (∀ (env : AllocEnv) (cmd : SnapCmd)
        (iblock indirect_blks blksReq : Nat) (bl : List Nat) (num : Nat),
      cmd.move = false →
      env.allocOutcome = Except.ok (bl, num) →
      (next3_alloc_branch_cow env cmd iblock indirect_blks blksReq).err
        < 0 →
      ((∀ b, AllocEffect.createAccess b ∈
            (next3_alloc_branch_cow env cmd iblock indirect_blks
              blksReq).effects →
          AllocEffect.journalForget b ∈
            (next3_alloc_branch_cow env cmd iblock indirect_blks
              blksReq).effects) ∧
       (∀ j, j < indirect_blks →
          AllocEffect.freeBlocks (bl.getD j 0) 1 ∈
            (next3_alloc_branch_cow env cmd iblock indirect_blks
              blksReq).effects) ∧
       (0 < num →
          AllocEffect.freeBlocks (bl.getD indirect_blks 0) num ∈
            (next3_alloc_branch_cow env cmd iblock indirect_blks
              blksReq).effects) ∧
       (∀ v, AllocEffect.writeParentSlot v ∉
          (next3_alloc_branch_cow env cmd iblock indirect_blks
            blksReq).effects))) ∧
    (∀ (env : AllocEnv) (cmd : SnapCmd)
        (iblock indirect_blks blksReq : Nat) (inds : List Nat),
      cmd.move = true →
      (if 0 < indirect_blks then env.allocIndirectOutcome
       else Except.ok []) = Except.ok inds →
      (next3_alloc_branch_cow env cmd iblock indirect_blks blksReq).err
        < 0 →
      0 < blksReq →
      (AllocEffect.refundSnapQuota blksReq ∈
          (next3_alloc_branch_cow env cmd iblock indirect_blks
            blksReq).effects ∧
       (∀ b, AllocEffect.createAccess b ∈
            (next3_alloc_branch_cow env cmd iblock indirect_blks
              blksReq).effects →
          AllocEffect.journalForget b ∈
            (next3_alloc_branch_cow env cmd iblock indirect_blks
              blksReq).effects) ∧
       (∀ j, j < indirect_blks →
          AllocEffect.freeBlocks ((inds ++ [iblock]).getD j 0) 1 ∈
            (next3_alloc_branch_cow env cmd iblock indirect_blks
              blksReq).effects) ∧
       (∀ first cnt, AllocEffect.freeBlocks first cnt ∈
            (next3_alloc_branch_cow env cmd iblock indirect_blks
              blksReq).effects →
          cnt = 1) ∧
       (∀ v, AllocEffect.writeParentSlot v ∉
          (next3_alloc_branch_cow env cmd iblock indirect_blks
            blksReq).effects))) ∧
    (∀ (env : AllocEnv) (cmd : SnapCmd) (whereKeys : List Nat)
        (num blks : Nat),
      env.writeAccessFails = true →
      ((next3_splice_branch_cow env cmd false whereKeys num blks).err
          < 0 ∧
       (next3_splice_branch_cow env cmd false whereKeys num
          blks).parentWritten = false ∧
       (cmd.sync = false → ∀ j, j < num →
          AllocEffect.journalForget (whereKeys.getD j 0) ∈
            (next3_splice_branch_cow env cmd false whereKeys num
              blks).effects) ∧
       (∀ j, j < num →
          AllocEffect.freeBlocks (whereKeys.getD j 0) 1 ∈
            (next3_splice_branch_cow env cmd false whereKeys num
              blks).effects) ∧
       (cmd.move = true →
          AllocEffect.refundSnapQuota blks ∈
            (next3_splice_branch_cow env cmd false whereKeys num
              blks).effects) ∧
       (cmd.move = false →
          AllocEffect.freeBlocks (whereKeys.getD num 0) blks ∈
            (next3_splice_branch_cow env cmd false whereKeys num
              blks).effects))) ∧
    (∀ (env : AllocEnv) (cmd : SnapCmd) (parentInInode : Bool)
        (whereKeys : List Nat) (num blks : Nat),
      (next3_splice_branch_cow env cmd parentInInode whereKeys num
        blks).err < 0 →
      (next3_splice_branch_cow env cmd parentInInode whereKeys num
        blks).parentWritten = true →
      (env.aborted = true ∧
       (cmd.sync = false → ∀ j, j < num →
          AllocEffect.journalForget (whereKeys.getD j 0) ∈
            (next3_splice_branch_cow env cmd parentInInode whereKeys num
              blks).effects) ∧
       (∀ j, j < num →
          AllocEffect.freeBlocks (whereKeys.getD j 0) 1 ∈
            (next3_splice_branch_cow env cmd parentInInode whereKeys num
              blks).effects) ∧
       (cmd.move = true →
          AllocEffect.refundSnapQuota blks ∈
            (next3_splice_branch_cow env cmd parentInInode whereKeys num
              blks).effects) ∧
       (cmd.move = false →
          AllocEffect.freeBlocks (whereKeys.getD num 0) blks ∈
            (next3_splice_branch_cow env cmd parentInInode whereKeys num
              blks).effects))) := by
  refine ⟨?_, ?_, ?_, ?_⟩
  · intro env cmd iblock indirect_blks blksReq bl num hmove halloc herr
    rw [alloc_branch_cow_plain_eq env cmd iblock indirect_blks blksReq bl
      num hmove halloc] at herr ⊢
    by_cases hr : (alloc_branch_loop env cmd bl 1 indirect_blks).1 < 0
    · rw [if_pos hr] at herr ⊢
      dsimp only at herr ⊢
      obtain ⟨hle, hlt, heff⟩ :=
        alloc_branch_loop_fail env cmd bl indirect_blks 1 hr
      refine ⟨?_, ?_, ?_, ?_⟩
      · intro b hb
        rw [List.mem_append] at hb
        rcases hb with hb | hb
        · have hsync :=
            alloc_branch_loop_create_sync env cmd bl indirect_blks 1 b hb
          obtain ⟨j, hj1, hj2, hj3⟩ := heff b (Or.inl hb)
          rw [List.mem_append]
          right
          rw [hj3]
          exact failed_effects_forget cmd bl indirect_blks _ num hsync
            (j - 1) (by omega)
        · exact absurd hb
            (failed_effects_no_create cmd bl indirect_blks _ num b)
      · intro j hj
        rw [List.mem_append]
        right
        exact failed_effects_free cmd bl indirect_blks _ num j hj
      · intro hnum
        rw [List.mem_append]
        right
        exact failed_effects_free_data cmd bl indirect_blks _ num hmove
          hnum
      · intro v hv
        rw [List.mem_append] at hv
        rcases hv with hv | hv
        · exact alloc_branch_loop_no_parent env cmd bl indirect_blks 1 v hv
        · exact failed_effects_no_parent cmd bl indirect_blks _ num v hv
    · rw [if_neg hr] at herr
      dsimp only at herr
      exact absurd herr (by norm_num)
  · intro env cmd iblock indirect_blks blksReq inds hmove hind herr hblks
    rw [alloc_branch_cow_move_eq env cmd iblock indirect_blks blksReq inds
      hmove hind] at herr ⊢
    by_cases hr :
      (alloc_branch_loop env cmd (inds ++ [iblock]) 1 indirect_blks).1 < 0
    · rw [if_pos hr] at herr ⊢
      dsimp only at herr ⊢
      obtain ⟨hle, hlt, heff⟩ :=
        alloc_branch_loop_fail env cmd (inds ++ [iblock]) indirect_blks 1 hr
      refine ⟨?_, ?_, ?_, ?_, ?_⟩
      · rw [List.mem_append]
        right
        exact failed_effects_refund cmd (inds ++ [iblock]) indirect_blks _
          blksReq hmove hblks
      · intro b hb
        rw [List.mem_append] at hb
        rcases hb with hb | hb
        · rw [List.mem_append] at hb
          rcases hb with hb | hb
          · simp at hb
          · have hsync := alloc_branch_loop_create_sync env cmd
              (inds ++ [iblock]) indirect_blks 1 b hb
            obtain ⟨j, hj1, hj2, hj3⟩ := heff b (Or.inl hb)
            rw [List.mem_append]
            right
            rw [hj3]
            exact failed_effects_forget cmd (inds ++ [iblock]) indirect_blks
              _ blksReq hsync (j - 1) (by omega)
        · exact absurd hb (failed_effects_no_create cmd (inds ++ [iblock])
            indirect_blks _ blksReq b)
      · intro j hj
        rw [List.mem_append]
        right
        exact failed_effects_free cmd (inds ++ [iblock]) indirect_blks _
          blksReq j hj
      · intro first cnt hmem
        rw [List.mem_append] at hmem
        rcases hmem with hmem | hmem
        · rw [List.mem_append] at hmem
          rcases hmem with hmem | hmem
          · simp at hmem
          · exact absurd hmem (alloc_branch_loop_no_free env cmd
              (inds ++ [iblock]) indirect_blks 1 first cnt)
        · exact failed_effects_free_count cmd (inds ++ [iblock])
            indirect_blks _ blksReq hmove first cnt hmem
      · intro v hv
        rw [List.mem_append] at hv
        rcases hv with hv | hv
        · rw [List.mem_append] at hv
          rcases hv with hv | hv
          · simp at hv
          · exact alloc_branch_loop_no_parent env cmd (inds ++ [iblock])
              indirect_blks 1 v hv
        · exact failed_effects_no_parent cmd (inds ++ [iblock])
            indirect_blks _ blksReq v hv
    · rw [if_neg hr] at herr
      dsimp only at herr
      exact absurd herr (by norm_num)
  · intro env cmd whereKeys num blks hwa
    have heq : next3_splice_branch_cow env cmd false whereKeys num blks =
        ⟨-5, false, [AllocEffect.writeAccessParent] ++
          splice_err_effects cmd whereKeys num blks⟩ := by
      simp [next3_splice_branch_cow, hwa]
    rw [heq]
    dsimp only
    refine ⟨by norm_num, rfl, ?_, ?_, ?_, ?_⟩
    · intro hsync j hj
      rw [List.mem_append]
      right
      exact splice_err_forget cmd whereKeys num blks hsync j hj
    · intro j hj
      rw [List.mem_append]
      right
      exact splice_err_free cmd whereKeys num blks j hj
    · intro hmove
      rw [List.mem_append]
      right
      exact splice_err_refund cmd whereKeys num blks hmove
    · intro hmove
      rw [List.mem_append]
      right
      exact splice_err_free_data cmd whereKeys num blks hmove
  · intro env cmd parentInInode whereKeys num blks herr hpw
    cases parentInInode with
    | true =>
      exfalso
      have h0 : (next3_splice_branch_cow env cmd true whereKeys num
          blks).err = 0 := by
        simp [next3_splice_branch_cow]
      rw [h0] at herr
      exact absurd herr (by norm_num)
    | false =>
      by_cases hwa : env.writeAccessFails = true
      · exfalso
        have h0 : (next3_splice_branch_cow env cmd false whereKeys num
            blks).parentWritten = false := by
          simp [next3_splice_branch_cow, hwa]
        rw [h0] at hpw
        exact absurd hpw (by norm_num)
      · by_cases hab : env.aborted = true
        · have heq : next3_splice_branch_cow env cmd false whereKeys num
              blks =
              ⟨-30, true, [AllocEffect.writeAccessParent] ++
                [AllocEffect.writeParentSlot (whereKeys.getD 0 0)] ++
                [AllocEffect.dirtyParent] ++
                splice_err_effects cmd whereKeys num blks⟩ := by
            simp [next3_splice_branch_cow, hwa, hab]
          rw [heq]
          dsimp only
          refine ⟨hab, ?_, ?_, ?_, ?_⟩
          · intro hsync j hj
            rw [List.mem_append]
            right
            exact splice_err_forget cmd whereKeys num blks hsync j hj
          · intro j hj
            rw [List.mem_append]
            right
            exact splice_err_free cmd whereKeys num blks j hj
          · intro hmove
            rw [List.mem_append]
            right
            exact splice_err_refund cmd whereKeys num blks hmove
          · intro hmove
            rw [List.mem_append]
            right
            exact splice_err_free_data cmd whereKeys num blks hmove
        · exfalso
          have h0 : (next3_splice_branch_cow env cmd false whereKeys num
              blks).err = 0 := by
            simp [next3_splice_branch_cow, hwa, hab]
          rw [h0] at herr
          exact absurd herr (by norm_num)

/-- A failed splice can leave the parent slot written: with an aborted
handle, `*where->p = where->key` happens before `dirty_metadata` fails, so
a slot reachable from the inode was modified by the failed call (the
on-disk tree survives only because the aborted transaction never
commits). -/

theorem C6_splice_parent_write_counterexample :
    (next3_splice_branch_cow
        ⟨Except.ok ([], 0), Except.ok [], fun _ => false, true, false⟩
        ⟨false, false⟩ false [100, 200] 1 1).err < 0 ∧
    (next3_splice_branch_cow
        ⟨Except.ok ([], 0), Except.ok [], fun _ => false, true, false⟩
        ⟨false, false⟩ false [100, 200] 1 1).parentWritten = true ∧
    AllocEffect.writeParentSlot 100 ∈
      (next3_splice_branch_cow
        ⟨Except.ok ([], 0), Except.ok [], fun _ => false, true, false⟩
        ⟨false, false⟩ false [100, 200] 1 1).effects := by
  refine ⟨by decide, by decide, by decide⟩

theorem C6_branch_failure_rollback_witness :
    AllocEffect.journalForget 100 ∈
      (next3_alloc_branch_cow
        ⟨Except.ok ([100, 200], 1), Except.ok [],
         fun n => decide (n = 1), false, false⟩
        ⟨false, false⟩ 7 1 1).effects ∧
    AllocEffect.freeBlocks 100 1 ∈
      (next3_alloc_branch_cow
        ⟨Except.ok ([100, 200], 1), Except.ok [],
         fun n => decide (n = 1), false, false⟩
        ⟨false, false⟩ 7 1 1).effects ∧
    AllocEffect.freeBlocks 200 1 ∈
      (next3_alloc_branch_cow
        ⟨Except.ok ([100, 200], 1), Except.ok [],
         fun n => decide (n = 1), false, false⟩
        ⟨false, false⟩ 7 1 1).effects ∧
    AllocEffect.refundSnapQuota 5 ∈
      (next3_splice_branch_cow
        ⟨Except.ok ([], 0), Except.ok [], fun _ => false, false, true⟩
        ⟨true, false⟩ false [100, 200] 1 5).effects := by
  obtain ⟨h1, h2, h3, h4⟩ := C6_branch_failure_rollback
  have ha := h1
    ⟨Except.ok ([100, 200], 1), Except.ok [],
     fun n => decide (n = 1), false, false⟩
    ⟨false, false⟩ 7 1 1 [100, 200] 1 rfl rfl (by decide)
  have hs := h3
    ⟨Except.ok ([], 0), Except.ok [], fun _ => false, false, true⟩
    ⟨true, false⟩ [100, 200] 1 5 rfl
  exact ⟨ha.1 100 (by decide), ha.2.1 0 (by decide),
    ha.2.2.1 (by decide), hs.2.2.2.2.1 rfl⟩

end Next3
